import Mathlib

/-!
Interrupt-servicing core of the SX86xx sensor family (`drivers/input/sensor/sx86xx.c`).

A shallow embedding of the C file.  The device context `struct sx86XX` becomes a record,
function pointers become addresses (`FnPtr`) whose behaviour is supplied by an environment
`Env`, and every call the core makes to a collaborator or to a kernel service is appended
to a trace, so that "is called", "exactly once" and "in this order" are statements about
lists.  Both compile-time variants (`USE_THREADED_IRQ` defined / not defined) are embedded;
the functions that exist in only one of them live in the namespaces `Threaded` and
`NonThreaded`.  Logging calls (`printk`, `dev_dbg`, `dev_info`, `dev_err`) are omitted.
-/

namespace Sx86xx

/-- Address of a function, as stored in a function-pointer field. -/
abbrev FnPtr := Nat

/-- A nullable pointer to the device context (or to the work item embedded in it). -/
inductive Ptr where
  | null
  | ctx
  deriving DecidableEq, Repr

/-- The two fields of `struct sx9500` (through `ptouchCheckParameters`) read at lines 46-47. -/
structure sx9500 where
  defaultStartupMainSensor : Nat
  defaultStartupRefSensor : Nat
  deriving DecidableEq, Repr

/-- The fields of `struct sx86XX` that `sx86xx.c` reads or writes.  `statusFunc` is the
array of `MAX_NUM_STATUS_BITS` handler pointers, indexed by bit position. -/
structure sx86XX where
  pDevice : Option sx9500
  init : Option FnPtr
  refreshStatus : FnPtr
  get_nirq_low : Option FnPtr
  statusFunc : Nat → Option FnPtr
  irq : Nat
  irq_disabled : Nat
  useIrqTimer : Bool
  irqTimeout : Nat
  inStartupTouch : Bool

/-- Which handler `sx86XX_init` registered on the interrupt line. -/
inductive IrqAction where
  | sx86XX_interrupt_thread
  | sx86XX_irq
  deriving DecidableEq, Repr

/-- Calls made by the core, in program order. -/
inductive Event where
  | get_nirq_low (f : FnPtr)
  | refreshStatus (f : FnPtr)
  | wake_lock_timeout (timeout : Nat)
  | touchCheckWithReferenceSensor (mainSensor refSensor : Nat)
  | statusFunc (counter : Nat) (f : FnPtr)
  | init (f : FnPtr)
  | cancel_delayed_work
  | schedule_delayed_work (delay : Nat)
  | cancel_delayed_work_sync
  | mutex_init
  | mutex_lock
  | mutex_unlock
  | spin_lock_init
  | spin_lock_irqsave
  | spin_unlock_irqrestore
  | INIT_DELAYED_WORK
  | request_threaded_irq (irq : Nat)
  | request_irq (irq : Nat)
  | register_early_suspend
  | unregister_early_suspend
  | free_irq (irq : Nat)
  | kfree
  deriving DecidableEq, Repr

/-- Machine state: the memory of the context `*this`, the hardware and bus state `world`
seen by the collaborators, the kernel objects owned by the context, and the trace.
`dworker = some d` means the delayed work item is pending with delay `d` (in jiffies,
counted from the call that queued it); `none` means it is idle.  The kernel objects
(`dworker`, `mutex`, `irq_action`, `early_suspend`, `freed`) change only through the
kernel calls made by this file. -/
structure State (W : Type) where
  this : sx86XX
  world : W
  dworker : Option Nat
  mutex : Bool
  irq_action : Option IrqAction
  early_suspend : Bool
  freed : Bool
  trace : List Event

/-- Everything the file takes from outside: the two configuration switches, the constant
`MAX_NUM_STATUS_BITS` of `sx86xx.h`, the kernel helpers, and the behaviour of the code
behind each function pointer.  `refreshStatus`, the status handlers, the startup check
and `init` all receive the writable context `this` and may change both it and the world;
`refreshStatus` returns the status as a C `int`; `get_nirq_low` takes no argument and
reads the line level. -/
structure Env (W : Type) where
  USE_THREADED_IRQ : Bool
  CONFIG_HAS_WAKELOCK : Bool
  MAX_NUM_STATUS_BITS : Nat
  msecs_to_jiffies : Nat → Nat
  get_nirq_low : FnPtr → W → Bool
  refreshStatus : FnPtr → sx86XX × W → Int × (sx86XX × W)
  statusFunc : FnPtr → sx86XX × W → sx86XX × W
  touchCheckWithReferenceSensor : Nat → Nat → sx86XX × W → sx86XX × W
  init : FnPtr → sx86XX × W → Int × (sx86XX × W)
  request_irq : Nat → W → Int
  has_wake_lock : W → Int
  get_suspend_state : W → Int

variable {W : Type}

def FAR_IRQ : Int := 0x20

def COMPDONE_IRQ : Int := 0x10

def ENOMEM : Int := 12

def IRQ_HANDLED : Int := 1

def PM_SUSPEND_ON : Int := 0

/-- Append one call to the trace. -/
def emit (e : Event) (s : State W) : State W :=
  { s with trace := s.trace ++ [e] }

/-! ### Kernel services -/

/-- Kernel `cancel_delayed_work`: a pending instance is removed. -/
def cancel_delayed_work (s : State W) : State W :=
  emit Event.cancel_delayed_work { s with dworker := none }

/-- Kernel `schedule_delayed_work`: queues the item with the given delay unless it is
already pending, in which case the pending instance is left as it is. -/
def schedule_delayed_work (delay : Nat) (s : State W) : State W :=
  emit (Event.schedule_delayed_work delay)
    { s with dworker := match s.dworker with
                        | none => some delay
                        | some d => some d }

/-- Kernel `cancel_delayed_work_sync`. -/
def cancel_delayed_work_sync (s : State W) : State W :=
  emit Event.cancel_delayed_work_sync { s with dworker := none }

def mutex_lock (s : State W) : State W :=
  emit Event.mutex_lock { s with mutex := true }

def mutex_unlock (s : State W) : State W :=
  emit Event.mutex_unlock { s with mutex := false }

/-- Kernel `request_threaded_irq` / `request_irq`: the kernel answers with an error code;
the handler is installed exactly when the answer is 0. -/
def register_irq (env : Env W) (h : IrqAction) (s : State W) : Int × State W :=
  let err := env.request_irq s.this.irq s.world
  (err, if err = 0 then { s with irq_action := some h } else s)

/-! ### The status dispatch loop (lines 56-63 and 177-184, textually identical) -/

/-- One iteration of the loop body at index `counter`:
`if (((status >> counter) & 0x01) && (this->statusFunc[counter])) this->statusFunc[counter](this);`
where `status` is a C `int`, on which `>>` is the arithmetic shift, as `>>>` is on `Int`. -/
def statusBody (env : Env W) (status : Int) (s : State W) (counter : Nat) : State W :=
  if Int.land (status >>> counter) 0x01 ≠ 0 then
    match s.this.statusFunc counter with
    | some f =>
      let s1 := emit (Event.statusFunc counter f) s
      let r := env.statusFunc f (s1.this, s1.world)
      { s1 with this := r.1, world := r.2 }
    | none => s
  else s

/-- The loop `counter = -1; while ((++counter) < MAX_NUM_STATUS_BITS) { ... }`:
the body runs for `counter = 0, 1, ..., MAX_NUM_STATUS_BITS - 1` in this order. -/
def statusLoop (env : Env W) (status : Int) (s : State W) : State W :=
  (List.range env.MAX_NUM_STATUS_BITS).foldl (statusBody env status) s

/-! ### Threaded variant (`#ifdef USE_THREADED_IRQ`) -/

namespace Threaded

/-- Lines 24-73. -/
def sx86XX_process_interrupt (env : Env W) (this : Ptr) (nirqlow : Nat) (s : State W) :
    State W :=
  match this with
  | Ptr.null => s
  | Ptr.ctx =>
    let s0 := emit (Event.refreshStatus s.this.refreshStatus) s
    let r := env.refreshStatus s.this.refreshStatus (s0.this, s0.world)
    let status := r.1
    let s1 := { s0 with this := r.2.1, world := r.2.2 }
    let s2 := emit (Event.wake_lock_timeout (env.msecs_to_jiffies 1500)) s1
    if s2.this.inStartupTouch = true then
      if Int.land status COMPDONE_IRQ = COMPDONE_IRQ ∨ Int.land status FAR_IRQ = FAR_IRQ then
        match s2.this.pDevice with
        | some pDevice =>
          let a := pDevice.defaultStartupMainSensor % 256
          let b := pDevice.defaultStartupRefSensor % 256
          let s3 := emit (Event.touchCheckWithReferenceSensor a b) s2
          let t := env.touchCheckWithReferenceSensor a b (s3.this, s3.world)
          { s3 with this := t.1, world := t.2 }
        | none => s2
      else s2
    else
      let s3 := statusLoop env status s2
      if s3.this.useIrqTimer = true ∧ nirqlow ≠ 0 then
        schedule_delayed_work (env.msecs_to_jiffies s3.this.irqTimeout) (cancel_delayed_work s3)
      else s3

/-- Lines 75-94.  `work` points to `dworker.work` inside the context, so `container_of`
yields the context whenever `work` is non-null. -/
def sx86XX_worker_func (env : Env W) (work : Ptr) (s : State W) : State W :=
  match work with
  | Ptr.null => s
  | Ptr.ctx =>
    match s.this.get_nirq_low with
    | none => sx86XX_process_interrupt env Ptr.ctx 0 s
    | some g =>
      let s1 := emit (Event.get_nirq_low g) s
      if env.get_nirq_low g s1.world = false then
        sx86XX_process_interrupt env Ptr.ctx 0 s1
      else s1

/-- Lines 96-114.  `data` is the cookie given to `request_threaded_irq`, that is the
context itself; the function dereferences it without a test. -/
def sx86XX_interrupt_thread (env : Env W) (s : State W) : Int × State W :=
  let s1 := mutex_lock s
  let s2 :=
    match s1.this.get_nirq_low with
    | none => sx86XX_process_interrupt env Ptr.ctx 1 s1
    | some g =>
      let s1g := emit (Event.get_nirq_low g) s1
      if env.get_nirq_low g s1g.world = true then
        sx86XX_process_interrupt env Ptr.ctx 1 s1g
      else s1g
  (IRQ_HANDLED, mutex_unlock s2)

end Threaded

/-! ### Non-threaded variant (`#else`) -/

namespace NonThreaded

/-- Lines 116-130. -/
def sx86XX_schedule_work (this : Ptr) (delay : Nat) (s : State W) : State W :=
  match this with
  | Ptr.ctx =>
    let s1 := emit Event.spin_lock_irqsave s
    let s2 := cancel_delayed_work s1
    let s3 := schedule_delayed_work delay s2
    emit Event.spin_unlock_irqrestore s3
  | Ptr.null => s

/-- Lines 132-151. -/
def sx86XX_irq (env : Env W) (pvoid : Ptr) (s : State W) : Int × State W :=
  match pvoid with
  | Ptr.ctx =>
    match s.this.get_nirq_low with
    | none => (IRQ_HANDLED, sx86XX_schedule_work Ptr.ctx 0 s)
    | some g =>
      let s1 := emit (Event.get_nirq_low g) s
      if env.get_nirq_low g s1.world = true then
        (IRQ_HANDLED, sx86XX_schedule_work Ptr.ctx 0 s1)
      else (IRQ_HANDLED, s1)
  | Ptr.null => (IRQ_HANDLED, s)

/-- The line-level capture of lines 167-171: the new state and the value of `nirqLow`. -/
def captureNirq (env : Env W) (s : State W) : Nat × State W :=
  if s.this.useIrqTimer = true then
    match s.this.get_nirq_low with
    | none => (1, s)
    | some g =>
      let s1 := emit (Event.get_nirq_low g) s
      if env.get_nirq_low g s1.world = true then (1, s1) else (0, s1)
  else (0, s)

/-- Lines 153-196. -/
def sx86XX_worker_func (env : Env W) (work : Ptr) (s : State W) : State W :=
  match work with
  | Ptr.null => s
  | Ptr.ctx =>
    let c := captureNirq env s
    let nirqLow := c.1
    let s1 := c.2
    let s1r := emit (Event.refreshStatus s1.this.refreshStatus) s1
    let r := env.refreshStatus s1.this.refreshStatus (s1r.this, s1r.world)
    let status := r.1
    let s2 := { s1r with this := r.2.1, world := r.2.2 }
    let s3 := statusLoop env status s2
    if s3.this.useIrqTimer = true ∧ nirqLow ≠ 0 then
      sx86XX_schedule_work Ptr.ctx (env.msecs_to_jiffies s3.this.irqTimeout) s3
    else s3

end NonThreaded

/-! ### Code common to both variants -/

/-- Lines 199-203: the body is commented out. -/
def sx86XX_suspend (_this : Ptr) (s : State W) : State W := s

/-- Lines 205-220. -/
def sx86XX_resume (env : Env W) (this : Ptr) (s : State W) : State W :=
  match this with
  | Ptr.ctx =>
    if env.USE_THREADED_IRQ = true then
      mutex_unlock (Threaded.sx86XX_process_interrupt env Ptr.ctx 0 (mutex_lock s))
    else
      NonThreaded.sx86XX_schedule_work Ptr.ctx 0 s
  | Ptr.null => s

/-- Lines 228-238: `container_of` on the embedded `early_suspend` yields the context. -/
def sx86XX_early_suspend (s : State W) : State W :=
  sx86XX_suspend Ptr.ctx s

/-- Lines 240-247. -/
def sx86XX_late_resume (env : Env W) (s : State W) : State W :=
  sx86XX_resume env Ptr.ctx s

/-- Lines 256-277: lock and work-item set-up, then the attempt to register the line. -/
def initRegister (env : Env W) (s : State W) : Int × State W :=
  if env.USE_THREADED_IRQ = true then
    let s1 := emit Event.INIT_DELAYED_WORK { s with dworker := none }
    let s2 := emit Event.mutex_init { s1 with mutex := false }
    let s3 := { s2 with this := { s2.this with irq_disabled := 0 } }
    register_irq env IrqAction.sx86XX_interrupt_thread
      (emit (Event.request_threaded_irq s3.this.irq) s3)
  else
    let s1 := emit Event.spin_lock_init s
    let s2 := emit Event.INIT_DELAYED_WORK { s1 with dworker := none }
    let s3 := { s2 with this := { s2.this with irq_disabled := 0 } }
    register_irq env IrqAction.sx86XX_irq (emit (Event.request_irq s3.this.irq) s3)

/-- Lines 290-299. -/
def initWakelock (env : Env W) (s : State W) : State W :=
  if env.CONFIG_HAS_WAKELOCK = true then
    let s1 := emit Event.register_early_suspend { s with early_suspend := true }
    if env.has_wake_lock s1.world = 0 ∧ env.get_suspend_state s1.world = PM_SUSPEND_ON then
      sx86XX_early_suspend s1
    else s1
  else s

/-- Lines 250-309. -/
def sx86XX_init (env : Env W) (this : Ptr) (s : State W) : Int × State W :=
  if this = Ptr.ctx ∧ s.this.pDevice.isSome = true then
    let r := initRegister env s
    let err := r.1
    if err ≠ 0 then (err, r.2)
    else
      let s1 := initWakelock env r.2
      match s1.this.init with
      | some f =>
        let s2 := emit (Event.init f) s1
        let i := env.init f (s2.this, s2.world)
        (i.1, { s2 with this := i.2.1, world := i.2.2 })
      | none => (-ENOMEM, s1)
  else (-ENOMEM, s)

/-- Lines 311-325. -/
def sx86XX_remove (env : Env W) (this : Ptr) (s : State W) : Int × State W :=
  match this with
  | Ptr.ctx =>
    let s1 := cancel_delayed_work_sync s
    let s2 :=
      if env.CONFIG_HAS_WAKELOCK = true then
        emit Event.unregister_early_suspend { s1 with early_suspend := false }
      else s1
    let s3 := emit (Event.free_irq s2.this.irq) { s2 with irq_action := none }
    let s4 := emit Event.kfree { s3 with freed := true }
    (0, s4)
  | Ptr.null => (-ENOMEM, s)

/-! ### Vocabulary for stating properties of traces -/

/-- The calls made between state `s` and a later state `out`. -/
def newEvents (s out : State W) : List Event :=
  out.trace.drop s.trace.length

/-- The handler calls a dispatch pass is expected to make for status `B` over the table
`T`: one call per index below `n` whose bit is set in `B` and whose entry is non-null,
in increasing index order. -/
def dispatchEvents (n : Nat) (B : Int) (T : Nat → Option FnPtr) : List Event :=
  (List.range n).filterMap fun i =>
    if B.testBit i = true then (T i).map (Event.statusFunc i) else none

/-- Delays of the `schedule_delayed_work` calls in a trace, in order. -/
def scheduledDelays (t : List Event) : List Nat :=
  t.filterMap fun e =>
    match e with
    | Event.schedule_delayed_work d => some d
    | _ => none

/-- Function pointers of the `refreshStatus` calls in a trace, in order. -/
def refreshCalls (t : List Event) : List FnPtr :=
  t.filterMap fun e =>
    match e with
    | Event.refreshStatus f => some f
    | _ => none

/-- Function pointers of the `get_nirq_low` calls in a trace, in order. -/
def lineReads (t : List Event) : List FnPtr :=
  t.filterMap fun e =>
    match e with
    | Event.get_nirq_low g => some g
    | _ => none

/-- Function pointers of the `init` calls in a trace, in order. -/
def initCalls (t : List Event) : List FnPtr :=
  t.filterMap fun e =>
    match e with
    | Event.init f => some f
    | _ => none

/-- The interrupt-registration attempts in a trace. -/
def irqRequests (t : List Event) : List Event :=
  t.filter fun e =>
    match e with
    | Event.request_irq _ => true
    | Event.request_threaded_irq _ => true
    | _ => false

/-- Whether an event is a call of a status handler. -/
def Event.isStatusFunc : Event → Bool
  | Event.statusFunc _ _ => true
  | _ => false

/-- Whether an event is a call into device-specific code that the dispatch engine
serialises: the status read, a status handler, or the startup check. -/
def Event.isDispatch : Event → Bool
  | Event.refreshStatus _ => true
  | Event.statusFunc _ _ => true
  | Event.touchCheckWithReferenceSensor _ _ => true
  | _ => false

/-- Whether the line counts as asserted in state `s`: `get_nirq_low` is absent or it
reports the line low. -/
def lineAsserted (env : Env W) (s : State W) : Bool :=
  match s.this.get_nirq_low with
  | none => true
  | some g => env.get_nirq_low g s.world

/-- Replays a trace from a given mutex state and reports whether every dispatch call in it
(status read, status handler, startup check) is made while the mutex is held. -/
def underMutex : Bool → List Event → Bool
  | _, [] => true
  | _, Event.mutex_lock :: es => underMutex true es
  | _, Event.mutex_unlock :: es => underMutex false es
  | held, e :: es => (!e.isDispatch || held) && underMutex held es

/-- The status value returned by the `refreshStatus` call made from state `s`. -/
def statusRead (env : Env W) (s : State W) : Int :=
  (env.refreshStatus s.this.refreshStatus (s.this, s.world)).1

/-- The context as the `refreshStatus` call made from state `s` leaves it.  This is the
context in which the code tests `inStartupTouch` (line 40) and `pDevice` (line 44) and
in which the dispatch loop starts (lines 56, 177). -/
def refreshedCtx (env : Env W) (s : State W) : sx86XX :=
  (env.refreshStatus s.this.refreshStatus (s.this, s.world)).2.1

/-- The state after the status read of the non-threaded work body (lines 167-175):
the optional line-level read and the status read have been made. -/
def NonThreaded.afterRefresh (env : Env W) (s : State W) : State W :=
  { s with
    this := refreshedCtx env s,
    world := (env.refreshStatus s.this.refreshStatus (s.this, s.world)).2.2,
    trace := s.trace ++
      (if s.this.useIrqTimer = true then (s.this.get_nirq_low.map Event.get_nirq_low).toList
       else []) ++ [Event.refreshStatus s.this.refreshStatus] }

/-- The state after the status read of the threaded dispatch body (lines 35-38):
the status read and the wake-lock call have been made. -/
def Threaded.afterRefresh (env : Env W) (s : State W) : State W :=
  { s with
    this := refreshedCtx env s,
    world := (env.refreshStatus s.this.refreshStatus (s.this, s.world)).2.2,
    trace := s.trace ++ [Event.refreshStatus s.this.refreshStatus,
      Event.wake_lock_timeout (env.msecs_to_jiffies 1500)] }

/-- The state of the threaded interrupt handler after it has taken the mutex and read
the line level (lines 101-104). -/
def Threaded.afterGate (s : State W) : State W :=
  { s with
    mutex := true,
    trace := s.trace ++ [Event.mutex_lock] ++
      (s.this.get_nirq_low.map Event.get_nirq_low).toList }

/-- The startup-check call expected for status `B` and device extension `pDevice`: one
call when bit 4 (COMPDONE) or bit 5 (FAR) is set and the extension is non-null. -/
def startupCheckEvents (B : Int) (pDevice : Option sx9500) : List Event :=
  match pDevice with
  | some p =>
    if B.testBit 4 = true ∨ B.testBit 5 = true then
      [Event.touchCheckWithReferenceSensor (p.defaultStartupMainSensor % 256)
        (p.defaultStartupRefSensor % 256)]
    else []
  | none => []

/-! ### A concrete board used to evaluate the definitions -/

/-- Hardware state of the example board: the level of the interrupt line, the content of
the status register, and a counter the example handlers add their address to. -/
structure Board where
  lineLow : Bool
  regStat : Int
  hits : Nat
  deriving DecidableEq, Repr

/-- Example collaborators: eight status bits, ten milliseconds per jiffy, a status read
that returns the register and releases the line, handlers that only touch the board,
a startup check that ends the startup phase, `init` returning its own address, and a
kernel that refuses interrupt line 0. -/
def boardEnv (threaded wakelock : Bool) : Env Board where
  USE_THREADED_IRQ := threaded
  CONFIG_HAS_WAKELOCK := wakelock
  MAX_NUM_STATUS_BITS := 8
  msecs_to_jiffies := fun m => (m + 9) / 10
  get_nirq_low := fun _ w => w.lineLow
  refreshStatus := fun _ cw => (cw.2.regStat, (cw.1, { cw.2 with lineLow := false }))
  statusFunc := fun f cw => (cw.1, { cw.2 with hits := cw.2.hits + f })
  touchCheckWithReferenceSensor := fun _ _ cw => ({ cw.1 with inStartupTouch := false }, cw.2)
  init := fun f cw => (Int.ofNat f, cw)
  request_irq := fun irq _ => if irq = 0 then -16 else 0
  has_wake_lock := fun _ => 0
  get_suspend_state := fun _ => 0

/-- Like `boardEnv true false`, except that every status handler clears `useIrqTimer`. -/
def clearingEnv : Env Board :=
  { boardEnv true false with
    statusFunc := fun _ cw => ({ cw.1 with useIrqTimer := false }, cw.2) }

/-- Like `boardEnv false false`, except that the status read clears `useIrqTimer`; the
status handlers leave the context alone. -/
def readClearsTimerEnv : Env Board :=
  { boardEnv false false with
    refreshStatus := fun _ cw =>
      (cw.2.regStat, ({ cw.1 with useIrqTimer := false }, { cw.2 with lineLow := false })) }

/-- Like `boardEnv true false`, except that the status read ends the startup phase. -/
def readEndsStartupEnv : Env Board :=
  { boardEnv true false with
    refreshStatus := fun _ cw =>
      (cw.2.regStat, ({ cw.1 with inStartupTouch := false }, { cw.2 with lineLow := false })) }

/-- Example context: handlers at bits 4 (COMPDONE) and 5 (FAR), the pen-up timer enabled
with a timeout of 100 ms, a line-level predicate, and an `init` pointer. -/
def boardCtx : sx86XX where
  pDevice := some { defaultStartupMainSensor := 0, defaultStartupRefSensor := 2 }
  init := some 7
  refreshStatus := 100
  get_nirq_low := some 200
  statusFunc := fun i => if i = 4 then some 104 else if i = 5 then some 105 else none
  irq := 42
  irq_disabled := 1
  useIrqTimer := true
  irqTimeout := 100
  inStartupTouch := false

/-- The example context during the startup phase. -/
def startupCtx : sx86XX :=
  { boardCtx with inStartupTouch := true }

/-- The example context without an `init` pointer. -/
def noInitCtx : sx86XX :=
  { boardCtx with init := none }

/-- The example context on interrupt line 0, which the example kernel refuses. -/
def busyCtx : sx86XX :=
  { boardCtx with irq := 0 }

/-- The example context without a line-level predicate. -/
def noGateCtx : sx86XX :=
  { boardCtx with get_nirq_low := none }

/-- Example state: line asserted, status register `0x30`, nothing pending or registered. -/
def boardState (ctx : sx86XX) : State Board where
  this := ctx
  world := { lineLow := true, regStat := 0x30, hits := 0 }
  dworker := none
  mutex := false
  irq_action := none
  early_suspend := false
  freed := false
  trace := []

/-! ## Lemmas -/

/-! ### Bit tests on a C `int` -/

theorem testBit_shiftRight_zero (s : Int) (i : Nat) : (s >>> i).testBit 0 = s.testBit i := by
  cases s with
  | ofNat n =>
    show Nat.testBit (n >>> i) 0 = Nat.testBit n i
    rw [Nat.testBit_shiftRight]; simp
  | negSucc n =>
    show (!Nat.testBit (n >>> i) 0) = !Nat.testBit n i
    rw [Nat.testBit_shiftRight]; simp

theorem land_zero_right (m : Int) : Int.land m 0 = 0 := by
  cases m with
  | ofNat n => show Int.ofNat (n &&& 0) = 0; simp
  | negSucc n => show Int.ofNat (Nat.ldiff 0 n) = 0; simp [Nat.ldiff]

theorem land_one_ne_zero (x : Int) : Int.land x 1 ≠ 0 ↔ x.testBit 0 = true := by
  conv_lhs => rw [← Int.bit_decomp x]
  conv_rhs => rw [← Int.bit_decomp x]
  have h1 : (1 : Int) = Int.bit true 0 := by decide
  rw [Int.testBit_bit_zero]
  conv_lhs => rw [h1, Int.land_bit, land_zero_right]
  cases x.bodd <;> decide

/-- The loop's test `(status >> counter) & 0x01` is the test of bit `counter`. -/
theorem statusBit_iff (B : Int) (i : Nat) :
    Int.land (B >>> i) 0x01 ≠ 0 ↔ B.testBit i = true := by
  rw [land_one_ne_zero, testBit_shiftRight_zero]

theorem land_two_pow_eq (k : Nat) : ∀ s : Int, Int.land s (2 ^ k) = 2 ^ k ↔ s.testBit k = true := by
  induction k with
  | zero =>
    intro s
    conv_lhs => rw [← Int.bit_decomp s]
    conv_rhs => rw [← Int.bit_decomp s]
    have h1 : ((2 : Int) ^ 0) = Int.bit true 0 := by decide
    rw [Int.testBit_bit_zero, h1, Int.land_bit, land_zero_right]
    cases s.bodd <;> decide
  | succ k ih =>
    intro s
    conv_lhs => rw [← Int.bit_decomp s]
    conv_rhs => rw [← Int.bit_decomp s]
    have h1 : ((2 : Int) ^ (k + 1)) = Int.bit false (2 ^ k) := by
      rw [Int.bit_val]; simp [pow_succ]; ring
    rw [Int.testBit_bit_succ, h1, Int.land_bit, ← ih s.div2]
    simp only [Bool.and_false, Int.bit_val]
    constructor
    · intro h; simpa using h
    · intro h; rw [h]

/-- The test `(status & COMPDONE_IRQ) == COMPDONE_IRQ` is the test of bit 4. -/
theorem compdone_iff (B : Int) : Int.land B COMPDONE_IRQ = COMPDONE_IRQ ↔ B.testBit 4 = true := by
  have h := land_two_pow_eq 4 B
  have e : ((2 : Int) ^ 4) = COMPDONE_IRQ := by decide
  rwa [e] at h

/-- The test `(status & FAR_IRQ) == FAR_IRQ` is the test of bit 5. -/
theorem far_iff (B : Int) : Int.land B FAR_IRQ = FAR_IRQ ↔ B.testBit 5 = true := by
  have h := land_two_pow_eq 5 B
  have e : ((2 : Int) ^ 5) = FAR_IRQ := by decide
  rwa [e] at h

/-! ### Traces -/

theorem ite_prop_pos {c P Q : Prop} [Decidable c] (hc : c) (h : if c then P else Q) : P := by
  rwa [if_pos hc] at h

theorem ite_prop_neg {c P Q : Prop} [Decidable c] (hc : ¬ c) (h : if c then P else Q) : Q := by
  rwa [if_neg hc] at h

theorem newEvents_eq (s out : State W) (l : List Event) (h : out.trace = s.trace ++ l) :
    newEvents s out = l := by
  simp [newEvents, h]

/-! ### The dispatch loop -/

theorem statusBody_eq (env : Env W) (B : Int) (s : State W) (i : Nat) :
    statusBody env B s i =
      if B.testBit i = true then
        match s.this.statusFunc i with
        | some f =>
          { s with this := (env.statusFunc f (s.this, s.world)).1,
                   world := (env.statusFunc f (s.this, s.world)).2,
                   trace := s.trace ++ [Event.statusFunc i f] }
        | none => s
      else s := by
  unfold statusBody
  by_cases h : B.testBit i = true
  · rw [if_pos ((statusBit_iff B i).2 h), if_pos h]
    cases hf : s.this.statusFunc i <;> simp [emit]
  · rw [if_neg (fun hc => h ((statusBit_iff B i).1 hc)), if_neg h]

/-- Whatever the handlers do, a run of loop iterations leaves the kernel objects alone
and appends only handler calls to the trace. -/
theorem foldl_statusBody_frame (env : Env W) (B : Int) (l : List Nat) :
    ∀ s : State W,
      (l.foldl (statusBody env B) s).dworker = s.dworker ∧
      (l.foldl (statusBody env B) s).mutex = s.mutex ∧
      (l.foldl (statusBody env B) s).irq_action = s.irq_action ∧
      (l.foldl (statusBody env B) s).early_suspend = s.early_suspend ∧
      (l.foldl (statusBody env B) s).freed = s.freed ∧
      ∃ t, (l.foldl (statusBody env B) s).trace = s.trace ++ t ∧
        ∀ e ∈ t, e.isStatusFunc = true := by
  induction l with
  | nil => intro s; simp
  | cons i l ih =>
    intro s
    obtain ⟨h1, h2, h3, h4, h5, t, h6, h7⟩ := ih (statusBody env B s i)
    rw [List.foldl_cons, h1, h2, h3, h4, h5, h6]
    rw [statusBody_eq]
    by_cases hb : B.testBit i = true
    · rw [if_pos hb]
      cases hf : s.this.statusFunc i with
      | none => exact ⟨rfl, rfl, rfl, rfl, rfl, t, rfl, h7⟩
      | some f =>
        refine ⟨rfl, rfl, rfl, rfl, rfl, Event.statusFunc i f :: t, by simp, ?_⟩
        intro e he
        rcases List.mem_cons.1 he with rfl | he
        · rfl
        · exact h7 e he
    · rw [if_neg hb]
      exact ⟨rfl, rfl, rfl, rfl, rfl, t, rfl, h7⟩

/-- When no handler changes `useIrqTimer`, the loop leaves it as it was. -/
theorem foldl_statusBody_useIrqTimer (env : Env W) (B : Int)
    (hU : ∀ f c w, (env.statusFunc f (c, w)).1.useIrqTimer = c.useIrqTimer) (l : List Nat) :
    ∀ s : State W, (l.foldl (statusBody env B) s).this.useIrqTimer = s.this.useIrqTimer := by
  induction l with
  | nil => intro s; rfl
  | cons i l ih =>
    intro s
    rw [List.foldl_cons, ih, statusBody_eq]
    by_cases hb : B.testBit i = true
    · rw [if_pos hb]
      cases hf : s.this.statusFunc i with
      | none => rfl
      | some f => exact hU f s.this s.world
    · rw [if_neg hb]

/-- When the registered handlers do not modify the table, a run of loop iterations over
indices below `n` keeps the table and appends exactly the expected calls. -/
theorem foldl_statusBody_exact (env : Env W) (B : Int) (n : Nat) (T : Nat → Option FnPtr)
    (hT : ∀ i f, i < n → T i = some f →
      ∀ c w, (env.statusFunc f (c, w)).1.statusFunc = c.statusFunc)
    (l : List Nat) (hl : ∀ i ∈ l, i < n) :
    ∀ s : State W, s.this.statusFunc = T →
      (l.foldl (statusBody env B) s).this.statusFunc = T ∧
      (l.foldl (statusBody env B) s).trace = s.trace ++
        l.filterMap fun i =>
          if B.testBit i = true then (T i).map (Event.statusFunc i) else none := by
  induction l with
  | nil => intro s hs; simp [hs]
  | cons i l ih =>
    intro s hs
    have hi : i < n := hl i (List.mem_cons_self i l)
    have hl2 : ∀ j ∈ l, j < n := fun j hj => hl j (List.mem_cons_of_mem i hj)
    rw [List.foldl_cons, statusBody_eq]
    by_cases hb : B.testBit i = true
    · rw [if_pos hb]
      cases hf : s.this.statusFunc i with
      | none =>
        have hTi : T i = none := by rw [← hs]; exact hf
        obtain ⟨h1, h2⟩ := ih hl2 s hs
        refine ⟨h1, ?_⟩
        rw [h2, List.filterMap_cons]
        simp [hb, hTi]
      | some f =>
        have hTi : T i = some f := by rw [← hs]; exact hf
        have hkeep := hT i f hi hTi s.this s.world
        obtain ⟨h1, h2⟩ := ih hl2
          { s with this := (env.statusFunc f (s.this, s.world)).1,
                   world := (env.statusFunc f (s.this, s.world)).2,
                   trace := s.trace ++ [Event.statusFunc i f] } (by simpa [hs] using hkeep)
        refine ⟨h1, ?_⟩
        rw [h2, List.filterMap_cons]
        simp [hb, hTi]
    · rw [if_neg hb]
      obtain ⟨h1, h2⟩ := ih hl2 s hs
      refine ⟨h1, ?_⟩
      rw [h2, List.filterMap_cons]
      simp [hb]

/-- Bits of the status at positions without a handler do not influence a run of loop
iterations. -/
theorem foldl_statusBody_congr (env : Env W) (B B2 : Int) (n : Nat) (T : Nat → Option FnPtr)
    (hT : ∀ i f, i < n → T i = some f →
      ∀ c w, (env.statusFunc f (c, w)).1.statusFunc = c.statusFunc)
    (hB : ∀ i, i < n → T i ≠ none → B2.testBit i = B.testBit i)
    (l : List Nat) (hl : ∀ i ∈ l, i < n) :
    ∀ s : State W, s.this.statusFunc = T →
      l.foldl (statusBody env B2) s = l.foldl (statusBody env B) s := by
  induction l with
  | nil => intro s _; rfl
  | cons i l ih =>
    intro s hs
    have hi : i < n := hl i (List.mem_cons_self i l)
    have hl2 : ∀ j ∈ l, j < n := fun j hj => hl j (List.mem_cons_of_mem i hj)
    have hstep : statusBody env B2 s i = statusBody env B s i := by
      rw [statusBody_eq, statusBody_eq]
      cases hf : s.this.statusFunc i with
      | none => simp
      | some f =>
        have hTi : T i ≠ none := by rw [← hs, hf]; simp
        rw [hB i hi hTi]
    have hkeep : (statusBody env B s i).this.statusFunc = T := by
      have := (foldl_statusBody_exact env B n T hT [i] (by simpa using hi) s hs).1
      simpa using this
    rw [List.foldl_cons, List.foldl_cons, hstep]
    exact ih hl2 _ hkeep

/-- Each expected call occurs exactly once, and nothing else occurs. -/
theorem dispatchEvents_count (n : Nat) (B : Int) (T : Nat → Option FnPtr) (i : Nat) (f : FnPtr) :
    (dispatchEvents n B T).count (Event.statusFunc i f) =
      if i < n ∧ B.testBit i = true ∧ T i = some f then 1 else 0 := by
  induction n with
  | zero => simp [dispatchEvents]
  | succ n ih =>
    have hsplit : dispatchEvents (n + 1) B T = dispatchEvents n B T ++
        (if B.testBit n = true then (T n).map (Event.statusFunc n) else none).toList := by
      simp only [dispatchEvents, List.range_succ, List.filterMap_append]
      congr 1
    rw [hsplit, List.count_append, ih]
    by_cases hin : i = n
    · subst hin
      by_cases hb : B.testBit i = true
      · cases hTi : T i with
        | none => simp [hb, hTi]
        | some g =>
          by_cases hg : g = f
          · subst hg; simp [hb, hTi]
          · have hg2 : ¬ f = g := fun h => hg h.symm
            simp [hb, hTi, hg, hg2]
      · simp [hb]
    · have hlt : (i < n + 1) ↔ (i < n) := by omega
      have hzero : ((if B.testBit n = true then (T n).map (Event.statusFunc n) else none).toList).count
          (Event.statusFunc i f) = 0 := by
        rw [List.count_eq_zero]
        intro hmem
        by_cases hb : B.testBit n = true
        · cases hTn : T n with
          | none => simp [hb, hTn] at hmem
          | some g => simp [hb, hTn] at hmem; exact hin hmem.1
        · simp [hb] at hmem
      rw [hzero]; simp only [hlt, Nat.add_zero]

/-- Handler calls are neither schedule, status-read nor line-read calls. -/
theorem filterMaps_of_isStatusFunc (t : List Event) (h : ∀ e ∈ t, e.isStatusFunc = true) :
    scheduledDelays t = [] ∧ refreshCalls t = [] ∧ lineReads t = [] := by
  induction t with
  | nil => simp [scheduledDelays, refreshCalls, lineReads]
  | cons e t ih =>
    have he := h e (List.mem_cons_self e t)
    obtain ⟨h1, h2, h3⟩ := ih (fun x hx => h x (List.mem_cons_of_mem e hx))
    cases e <;> simp [Event.isStatusFunc] at he
    refine ⟨?_, ?_, ?_⟩
    · simpa [scheduledDelays] using h1
    · simpa [refreshCalls] using h2
    · simpa [lineReads] using h3

theorem statusLoop_frame (env : Env W) (B : Int) (s : State W) :
    (statusLoop env B s).dworker = s.dworker ∧
    (statusLoop env B s).mutex = s.mutex ∧
    (statusLoop env B s).irq_action = s.irq_action ∧
    (statusLoop env B s).early_suspend = s.early_suspend ∧
    (statusLoop env B s).freed = s.freed ∧
    ∃ t, (statusLoop env B s).trace = s.trace ++ t ∧ ∀ e ∈ t, e.isStatusFunc = true :=
  foldl_statusBody_frame env B _ s

theorem statusLoop_useIrqTimer (env : Env W) (B : Int)
    (hU : ∀ f c w, (env.statusFunc f (c, w)).1.useIrqTimer = c.useIrqTimer) (s : State W) :
    (statusLoop env B s).this.useIrqTimer = s.this.useIrqTimer :=
  foldl_statusBody_useIrqTimer env B hU _ s

theorem statusLoop_exact (env : Env W) (B : Int) (s : State W)
    (hT : ∀ i f, i < env.MAX_NUM_STATUS_BITS → s.this.statusFunc i = some f →
      ∀ c w, (env.statusFunc f (c, w)).1.statusFunc = c.statusFunc) :
    (statusLoop env B s).this.statusFunc = s.this.statusFunc ∧
    (statusLoop env B s).trace =
      s.trace ++ dispatchEvents env.MAX_NUM_STATUS_BITS B s.this.statusFunc :=
  foldl_statusBody_exact env B env.MAX_NUM_STATUS_BITS s.this.statusFunc hT
    (List.range env.MAX_NUM_STATUS_BITS) (fun _ hi => List.mem_range.1 hi) s rfl

theorem statusLoop_congr (env : Env W) (B B2 : Int) (s : State W)
    (hT : ∀ i f, i < env.MAX_NUM_STATUS_BITS → s.this.statusFunc i = some f →
      ∀ c w, (env.statusFunc f (c, w)).1.statusFunc = c.statusFunc)
    (hB : ∀ i, i < env.MAX_NUM_STATUS_BITS → s.this.statusFunc i ≠ none →
      B2.testBit i = B.testBit i) :
    statusLoop env B2 s = statusLoop env B s :=
  foldl_statusBody_congr env B B2 env.MAX_NUM_STATUS_BITS s.this.statusFunc hT hB
    (List.range env.MAX_NUM_STATUS_BITS) (fun _ hi => List.mem_range.1 hi) s rfl

theorem dispatchEvents_isStatusFunc (n : Nat) (B : Int) (T : Nat → Option FnPtr) :
    ∀ e ∈ dispatchEvents n B T, e.isStatusFunc = true := by
  intro e he
  simp only [dispatchEvents, List.mem_filterMap] at he
  obtain ⟨i, _, hi⟩ := he
  by_cases hb : B.testBit i = true
  · rw [if_pos hb] at hi
    cases hTi : T i with
    | none => simp [hTi] at hi
    | some g => simp [hTi] at hi; subst hi; rfl
  · rw [if_neg hb] at hi; simp at hi

/-! ### The scheduler and the line-level capture of the non-threaded variant -/

theorem schedule_work_eq (d : Nat) (s : State W) :
    NonThreaded.sx86XX_schedule_work Ptr.ctx d s =
      { s with dworker := some d,
               trace := s.trace ++ [Event.spin_lock_irqsave, Event.cancel_delayed_work,
                 Event.schedule_delayed_work d, Event.spin_unlock_irqrestore] } := by
  simp [NonThreaded.sx86XX_schedule_work, cancel_delayed_work, schedule_delayed_work, emit]

theorem rearm_eq (d : Nat) (s : State W) :
    schedule_delayed_work d (cancel_delayed_work s) =
      { s with dworker := some d,
               trace := s.trace ++ [Event.cancel_delayed_work, Event.schedule_delayed_work d] } := by
  simp [cancel_delayed_work, schedule_delayed_work, emit]

theorem captureNirq_snd (env : Env W) (s : State W) :
    (NonThreaded.captureNirq env s).2 =
      { s with trace := s.trace ++
          if s.this.useIrqTimer = true then
            (s.this.get_nirq_low.map Event.get_nirq_low).toList
          else [] } := by
  unfold NonThreaded.captureNirq
  by_cases hU : s.this.useIrqTimer = true
  · rw [if_pos hU, if_pos hU]
    cases hg : s.this.get_nirq_low with
    | none => simp
    | some g =>
      by_cases hl : env.get_nirq_low g s.world = true
      · simp [hl, emit]
      · simp [hl, emit]
  · rw [if_neg hU, if_neg hU]; simp

theorem captureNirq_fst (env : Env W) (s : State W) :
    (NonThreaded.captureNirq env s).1 ≠ 0 ↔
      (s.this.useIrqTimer = true ∧ lineAsserted env s = true) := by
  unfold NonThreaded.captureNirq lineAsserted
  by_cases hU : s.this.useIrqTimer = true
  · rw [if_pos hU]
    cases hg : s.this.get_nirq_low with
    | none => simp [hU]
    | some g =>
      by_cases hl : env.get_nirq_low g s.world = true
      · simp [hl, emit, hU]
      · simp [hl, emit, hU]
  · rw [if_neg hU]; simp [hU]

/-! ### Shape of the two dispatch bodies -/

theorem NonThreaded.worker_shape (env : Env W) (s : State W) :
    NonThreaded.sx86XX_worker_func env Ptr.ctx s =
      if (statusLoop env (statusRead env s) (NonThreaded.afterRefresh env s)).this.useIrqTimer = true
          ∧ s.this.useIrqTimer = true ∧ lineAsserted env s = true then
        NonThreaded.sx86XX_schedule_work Ptr.ctx
          (env.msecs_to_jiffies
            (statusLoop env (statusRead env s) (NonThreaded.afterRefresh env s)).this.irqTimeout)
          (statusLoop env (statusRead env s) (NonThreaded.afterRefresh env s))
      else statusLoop env (statusRead env s) (NonThreaded.afterRefresh env s) := by
  have h2 := captureNirq_snd env s
  have h1 := captureNirq_fst env s
  have hs : { emit (Event.refreshStatus (NonThreaded.captureNirq env s).2.this.refreshStatus)
        (NonThreaded.captureNirq env s).2 with
        this := (env.refreshStatus (NonThreaded.captureNirq env s).2.this.refreshStatus
          ((emit (Event.refreshStatus (NonThreaded.captureNirq env s).2.this.refreshStatus)
              (NonThreaded.captureNirq env s).2).this,
            (emit (Event.refreshStatus (NonThreaded.captureNirq env s).2.this.refreshStatus)
              (NonThreaded.captureNirq env s).2).world)).2.1,
        world := (env.refreshStatus (NonThreaded.captureNirq env s).2.this.refreshStatus
          ((emit (Event.refreshStatus (NonThreaded.captureNirq env s).2.this.refreshStatus)
              (NonThreaded.captureNirq env s).2).this,
            (emit (Event.refreshStatus (NonThreaded.captureNirq env s).2.this.refreshStatus)
              (NonThreaded.captureNirq env s).2).world)).2.2 }
      = NonThreaded.afterRefresh env s := by
    rw [h2]; simp [emit, NonThreaded.afterRefresh, refreshedCtx]
  have hB : (env.refreshStatus (NonThreaded.captureNirq env s).2.this.refreshStatus
        ((emit (Event.refreshStatus (NonThreaded.captureNirq env s).2.this.refreshStatus)
            (NonThreaded.captureNirq env s).2).this,
          (emit (Event.refreshStatus (NonThreaded.captureNirq env s).2.this.refreshStatus)
            (NonThreaded.captureNirq env s).2).world)).1
      = statusRead env s := by
    rw [h2]; rfl
  show (if _ then _ else _) = _
  simp only [hs, hB, h1]

theorem Threaded.process_shape (env : Env W) (nirqlow : Nat) (s : State W) :
    Threaded.sx86XX_process_interrupt env Ptr.ctx nirqlow s =
      if (refreshedCtx env s).inStartupTouch = true then
        if (statusRead env s).testBit 4 = true ∨ (statusRead env s).testBit 5 = true then
          match (refreshedCtx env s).pDevice with
          | some p =>
            { Threaded.afterRefresh env s with
              this := (env.touchCheckWithReferenceSensor (p.defaultStartupMainSensor % 256)
                (p.defaultStartupRefSensor % 256)
                (refreshedCtx env s, (Threaded.afterRefresh env s).world)).1,
              world := (env.touchCheckWithReferenceSensor (p.defaultStartupMainSensor % 256)
                (p.defaultStartupRefSensor % 256)
                (refreshedCtx env s, (Threaded.afterRefresh env s).world)).2,
              trace := (Threaded.afterRefresh env s).trace ++
                [Event.touchCheckWithReferenceSensor (p.defaultStartupMainSensor % 256)
                  (p.defaultStartupRefSensor % 256)] }
          | none => Threaded.afterRefresh env s
        else Threaded.afterRefresh env s
      else
        if (statusLoop env (statusRead env s) (Threaded.afterRefresh env s)).this.useIrqTimer = true
            ∧ nirqlow ≠ 0 then
          { statusLoop env (statusRead env s) (Threaded.afterRefresh env s) with
            dworker := some (env.msecs_to_jiffies
              (statusLoop env (statusRead env s) (Threaded.afterRefresh env s)).this.irqTimeout),
            trace := (statusLoop env (statusRead env s) (Threaded.afterRefresh env s)).trace ++
              [Event.cancel_delayed_work, Event.schedule_delayed_work (env.msecs_to_jiffies
                (statusLoop env (statusRead env s) (Threaded.afterRefresh env s)).this.irqTimeout)] }
        else statusLoop env (statusRead env s) (Threaded.afterRefresh env s) := by
  have hs : emit (Event.wake_lock_timeout (env.msecs_to_jiffies 1500))
      { emit (Event.refreshStatus s.this.refreshStatus) s with
        this := (env.refreshStatus s.this.refreshStatus
          ((emit (Event.refreshStatus s.this.refreshStatus) s).this,
            (emit (Event.refreshStatus s.this.refreshStatus) s).world)).2.1,
        world := (env.refreshStatus s.this.refreshStatus
          ((emit (Event.refreshStatus s.this.refreshStatus) s).this,
            (emit (Event.refreshStatus s.this.refreshStatus) s).world)).2.2 }
      = Threaded.afterRefresh env s := by
    simp [emit, Threaded.afterRefresh, refreshedCtx]
  show (if _ then _ else _) = _
  simp only [hs, compdone_iff, far_iff, rearm_eq]
  rfl

theorem statusLoop_trace (env : Env W) (B : Int) (s : State W) :
    (statusLoop env B s).trace = s.trace ++ newEvents s (statusLoop env B s) ∧
    ∀ e ∈ newEvents s (statusLoop env B s), e.isStatusFunc = true := by
  obtain ⟨_, _, _, _, _, t, h1, h2⟩ := statusLoop_frame env B s
  rw [newEvents_eq _ _ t h1]
  exact ⟨h1, h2⟩

/-- Calls made by the non-threaded work body: the optional line read, the status read,
the handler calls of the loop, and the optional re-arming of the work item. -/
theorem NonThreaded.worker_trace (env : Env W) (s : State W) :
    (NonThreaded.sx86XX_worker_func env Ptr.ctx s).trace = s.trace ++
      ((if s.this.useIrqTimer = true then (s.this.get_nirq_low.map Event.get_nirq_low).toList
        else []) ++ [Event.refreshStatus s.this.refreshStatus] ++
      newEvents (NonThreaded.afterRefresh env s)
        (statusLoop env (statusRead env s) (NonThreaded.afterRefresh env s)) ++
      (if (NonThreaded.sx86XX_worker_func env Ptr.ctx s).this.useIrqTimer = true
          ∧ s.this.useIrqTimer = true ∧ lineAsserted env s = true then
        [Event.spin_lock_irqsave, Event.cancel_delayed_work,
          Event.schedule_delayed_work (env.msecs_to_jiffies
            (NonThreaded.sx86XX_worker_func env Ptr.ctx s).this.irqTimeout),
          Event.spin_unlock_irqrestore]
       else [])) := by
  have hl := (statusLoop_trace env (statusRead env s) (NonThreaded.afterRefresh env s)).1
  by_cases hc : (statusLoop env (statusRead env s) (NonThreaded.afterRefresh env s)).this.useIrqTimer
      = true ∧ s.this.useIrqTimer = true ∧ lineAsserted env s = true
  · have hout := NonThreaded.worker_shape env s
    rw [if_pos hc, schedule_work_eq] at hout
    rw [hout]
    simp only [hc, and_self, if_true]
    rw [hl]
    simp [NonThreaded.afterRefresh, hc.2.1]
  · have hout := NonThreaded.worker_shape env s
    rw [if_neg hc] at hout
    rw [hout, if_neg hc, hl]
    simp [NonThreaded.afterRefresh]

/-- Calls made by the threaded dispatch body. -/
theorem Threaded.process_trace (env : Env W) (nirqlow : Nat) (s : State W) :
    (Threaded.sx86XX_process_interrupt env Ptr.ctx nirqlow s).trace = s.trace ++
      ([Event.refreshStatus s.this.refreshStatus,
        Event.wake_lock_timeout (env.msecs_to_jiffies 1500)] ++
      (if (refreshedCtx env s).inStartupTouch = true then
        startupCheckEvents (statusRead env s) (refreshedCtx env s).pDevice
       else
        newEvents (Threaded.afterRefresh env s)
          (statusLoop env (statusRead env s) (Threaded.afterRefresh env s)) ++
        (if (Threaded.sx86XX_process_interrupt env Ptr.ctx nirqlow s).this.useIrqTimer = true
            ∧ nirqlow ≠ 0 then
          [Event.cancel_delayed_work,
            Event.schedule_delayed_work (env.msecs_to_jiffies
              (Threaded.sx86XX_process_interrupt env Ptr.ctx nirqlow s).this.irqTimeout)]
         else []))) := by
  have hl := (statusLoop_trace env (statusRead env s) (Threaded.afterRefresh env s)).1
  have hout := Threaded.process_shape env nirqlow s
  by_cases hS : (refreshedCtx env s).inStartupTouch = true
  · rw [if_pos hS] at hout
    rw [if_pos hS]
    by_cases hb : (statusRead env s).testBit 4 = true ∨ (statusRead env s).testBit 5 = true
    · rw [if_pos hb] at hout
      cases hp : (refreshedCtx env s).pDevice with
      | none => rw [hp] at hout; rw [hout]; simp [Threaded.afterRefresh, startupCheckEvents]
      | some p =>
        rw [hp] at hout; rw [hout]; simp [Threaded.afterRefresh, startupCheckEvents, hb]
    · rw [if_neg hb] at hout
      rw [hout]
      cases hp : (refreshedCtx env s).pDevice <;>
        simp [Threaded.afterRefresh, startupCheckEvents, hb]
  · rw [if_neg hS] at hout
    rw [if_neg hS]
    by_cases hc :
        (statusLoop env (statusRead env s) (Threaded.afterRefresh env s)).this.useIrqTimer
          = true ∧ nirqlow ≠ 0
    · rw [if_pos hc] at hout
      rw [hout]
      simp only [hc, and_self, if_true, ne_eq, not_false_eq_true]
      rw [hl]
      simp [Threaded.afterRefresh]
    · rw [if_neg hc] at hout
      rw [hout, if_neg hc, hl]
      simp [Threaded.afterRefresh]

/-- What the threaded dispatch body does to the work item and to the mutex. -/
theorem Threaded.process_dworker (env : Env W) (nirqlow : Nat) (s : State W) :
    (Threaded.sx86XX_process_interrupt env Ptr.ctx nirqlow s).dworker =
      (if (refreshedCtx env s).inStartupTouch = false ∧
          (Threaded.sx86XX_process_interrupt env Ptr.ctx nirqlow s).this.useIrqTimer = true ∧
          nirqlow ≠ 0 then
        some (env.msecs_to_jiffies
          (Threaded.sx86XX_process_interrupt env Ptr.ctx nirqlow s).this.irqTimeout)
       else s.dworker) ∧
    (Threaded.sx86XX_process_interrupt env Ptr.ctx nirqlow s).mutex = s.mutex := by
  have hf := statusLoop_frame env (statusRead env s) (Threaded.afterRefresh env s)
  have hout := Threaded.process_shape env nirqlow s
  by_cases hS : (refreshedCtx env s).inStartupTouch = true
  · rw [if_pos hS] at hout
    by_cases hb : (statusRead env s).testBit 4 = true ∨ (statusRead env s).testBit 5 = true
    · rw [if_pos hb] at hout
      cases hp : (refreshedCtx env s).pDevice with
      | none => rw [hp] at hout; rw [hout]; simp [Threaded.afterRefresh, hS]
      | some p => rw [hp] at hout; rw [hout]; simp [Threaded.afterRefresh, hS]
    · rw [if_neg hb] at hout
      rw [hout]; simp [Threaded.afterRefresh, hS]
  · rw [if_neg hS] at hout
    have hS2 : (refreshedCtx env s).inStartupTouch = false := by simpa using hS
    by_cases hc :
        (statusLoop env (statusRead env s) (Threaded.afterRefresh env s)).this.useIrqTimer
          = true ∧ nirqlow ≠ 0
    · rw [if_pos hc] at hout
      rw [hout]
      refine ⟨?_, hf.2.1⟩
      simp [hS2, hc.1, hc.2]
    · rw [if_neg hc] at hout
      rw [hout]
      refine ⟨?_, hf.2.1⟩
      rw [if_neg (fun h => hc h.2), hf.1]
      rfl

/-- When no handler changes `useIrqTimer` and the startup phase is over, the threaded
dispatch body leaves `useIrqTimer` as the status read left it. -/
theorem Threaded.process_useIrqTimer (env : Env W) (nirqlow : Nat) (s : State W)
    (hU : ∀ f c w, (env.statusFunc f (c, w)).1.useIrqTimer = c.useIrqTimer)
    (hS : (refreshedCtx env s).inStartupTouch = false) :
    (Threaded.sx86XX_process_interrupt env Ptr.ctx nirqlow s).this.useIrqTimer
      = (refreshedCtx env s).useIrqTimer := by
  have hu := statusLoop_useIrqTimer env (statusRead env s) hU (Threaded.afterRefresh env s)
  have hout := Threaded.process_shape env nirqlow s
  rw [if_neg (by simp [hS])] at hout
  rw [hout]
  split <;> exact hu

/-- The threaded interrupt handler: lock, gate on the line level, dispatch body with
`nirqlow = 1` when the gate passes, unlock. -/
theorem Threaded.thread_shape (env : Env W) (s : State W) :
    Threaded.sx86XX_interrupt_thread env s =
      (IRQ_HANDLED,
        mutex_unlock
          (if lineAsserted env s = true then
            Threaded.sx86XX_process_interrupt env Ptr.ctx 1 (Threaded.afterGate s)
           else Threaded.afterGate s)) := by
  unfold Threaded.sx86XX_interrupt_thread lineAsserted
  cases hg : s.this.get_nirq_low with
  | none => simp [mutex_lock, emit, Threaded.afterGate, hg]
  | some g =>
    by_cases hl : env.get_nirq_low g s.world = true
    · simp [mutex_lock, emit, Threaded.afterGate, hg, hl]
    · simp [mutex_lock, emit, Threaded.afterGate, hg, hl]

theorem count_statusFunc_lineRead (c : Prop) [Decidable c] (o : Option FnPtr) (i : Nat)
    (f : FnPtr) :
    (if c then (o.map Event.get_nirq_low).toList else []).count (Event.statusFunc i f) = 0 := by
  split
  · cases o <;> simp
  · simp

/-! ### Projections of traces -/

theorem scheduledDelays_append (a b : List Event) :
    scheduledDelays (a ++ b) = scheduledDelays a ++ scheduledDelays b := by
  simp [scheduledDelays]

theorem refreshCalls_append (a b : List Event) :
    refreshCalls (a ++ b) = refreshCalls a ++ refreshCalls b := by
  simp [refreshCalls]

theorem lineReads_append (a b : List Event) :
    lineReads (a ++ b) = lineReads a ++ lineReads b := by
  simp [lineReads]

theorem projections_lineRead (o : Option FnPtr) :
    scheduledDelays (o.map Event.get_nirq_low).toList = [] ∧
    refreshCalls (o.map Event.get_nirq_low).toList = [] ∧
    lineReads (o.map Event.get_nirq_low).toList = o.toList := by
  cases o <;> simp [scheduledDelays, refreshCalls, lineReads]

theorem projections_startupCheck (B : Int) (p : Option sx9500) :
    scheduledDelays (startupCheckEvents B p) = [] ∧
    refreshCalls (startupCheckEvents B p) = [] ∧
    ∀ e ∈ startupCheckEvents B p, e ≠ Event.mutex_unlock := by
  unfold startupCheckEvents
  cases p with
  | none => simp [scheduledDelays, refreshCalls]
  | some p => split <;> simp [scheduledDelays, refreshCalls]

/-- The calls of the threaded dispatch body contain one status read, at most one
`schedule_delayed_work` (present exactly when the startup phase is over, `useIrqTimer`
is set at the end of the pass and `nirqlow` is non-zero), and no `mutex_unlock`. -/
theorem Threaded.process_projections (env : Env W) (nirqlow : Nat) (s : State W) :
    scheduledDelays (newEvents s (Threaded.sx86XX_process_interrupt env Ptr.ctx nirqlow s)) =
      (if (refreshedCtx env s).inStartupTouch = false ∧
          (Threaded.sx86XX_process_interrupt env Ptr.ctx nirqlow s).this.useIrqTimer = true ∧
          nirqlow ≠ 0 then
        [env.msecs_to_jiffies
          (Threaded.sx86XX_process_interrupt env Ptr.ctx nirqlow s).this.irqTimeout]
       else []) ∧
    refreshCalls (newEvents s (Threaded.sx86XX_process_interrupt env Ptr.ctx nirqlow s)) =
      [s.this.refreshStatus] ∧
    (∀ e ∈ newEvents s (Threaded.sx86XX_process_interrupt env Ptr.ctx nirqlow s),
      e ≠ Event.mutex_unlock) := by
  have htr := newEvents_eq _ _ _ (Threaded.process_trace env nirqlow s)
  have hl := (statusLoop_trace env (statusRead env s) (Threaded.afterRefresh env s)).2
  have hp := filterMaps_of_isStatusFunc _ hl
  have hsc := projections_startupCheck (statusRead env s) (refreshedCtx env s).pDevice
  rw [htr]
  by_cases hS : (refreshedCtx env s).inStartupTouch = true
  · rw [if_pos hS, if_neg (by simp [hS])]
    refine ⟨?_, ?_, ?_⟩
    · rw [scheduledDelays_append, hsc.1]; simp [scheduledDelays]
    · rw [refreshCalls_append, hsc.2.1]; simp [refreshCalls]
    · intro e he
      rcases List.mem_append.1 he with h | h
      · intro hc; subst hc; simp at h
      · exact hsc.2.2 e h
  · have hS2 : (refreshedCtx env s).inStartupTouch = false := by simpa using hS
    rw [if_neg hS]
    refine ⟨?_, ?_, ?_⟩
    · rw [scheduledDelays_append, scheduledDelays_append, hp.1]
      by_cases hc : (Threaded.sx86XX_process_interrupt env Ptr.ctx nirqlow s).this.useIrqTimer
          = true ∧ nirqlow ≠ 0
      · rw [if_pos hc, if_pos ⟨hS2, hc⟩]; simp [scheduledDelays]
      · rw [if_neg hc, if_neg (fun h => hc h.2)]; simp [scheduledDelays]
    · rw [refreshCalls_append, refreshCalls_append, hp.2.1]
      split <;> simp [refreshCalls]
    · intro e he
      rcases List.mem_append.1 he with h | h
      · intro hc; subst hc; simp at h
      · rcases List.mem_append.1 h with h | h
        · intro hc; subst hc
          have := hl _ h
          simp [Event.isStatusFunc] at this
        · intro hc; subst hc
          split at h <;> simp at h

/-- Calls made by the threaded interrupt handler. -/
theorem Threaded.thread_trace (env : Env W) (s : State W) :
    (Threaded.sx86XX_interrupt_thread env s).2.trace = s.trace ++
      ([Event.mutex_lock] ++ (s.this.get_nirq_low.map Event.get_nirq_low).toList ++
       (if lineAsserted env s = true then
          newEvents (Threaded.afterGate s)
            (Threaded.sx86XX_process_interrupt env Ptr.ctx 1 (Threaded.afterGate s))
        else []) ++ [Event.mutex_unlock]) := by
  rw [Threaded.thread_shape]
  by_cases ha : lineAsserted env s = true
  · rw [if_pos ha, if_pos ha]
    show (Threaded.sx86XX_process_interrupt env Ptr.ctx 1 (Threaded.afterGate s)).trace ++ _ = _
    rw [Threaded.process_trace env 1 (Threaded.afterGate s),
      newEvents_eq _ _ _ (Threaded.process_trace env 1 (Threaded.afterGate s))]
    simp [Threaded.afterGate]
  · rw [if_neg ha, if_neg ha]
    simp [mutex_unlock, emit, Threaded.afterGate]

/-! ### Set-up -/

/-- The calls of lines 256-277 under the two variants. -/
theorem initRegister_eq (env : Env W) (s : State W) :
    initRegister env s =
      (env.request_irq s.this.irq s.world,
        { s with
          this := { s.this with irq_disabled := 0 },
          dworker := none,
          mutex := if env.USE_THREADED_IRQ = true then false else s.mutex,
          irq_action :=
            if env.request_irq s.this.irq s.world = 0 then
              some (if env.USE_THREADED_IRQ = true then IrqAction.sx86XX_interrupt_thread
                else IrqAction.sx86XX_irq)
            else s.irq_action,
          trace := s.trace ++
            if env.USE_THREADED_IRQ = true then
              [Event.INIT_DELAYED_WORK, Event.mutex_init, Event.request_threaded_irq s.this.irq]
            else
              [Event.spin_lock_init, Event.INIT_DELAYED_WORK, Event.request_irq s.this.irq] }) := by
  unfold initRegister register_irq
  by_cases hV : env.USE_THREADED_IRQ = true
  · by_cases he : env.request_irq s.this.irq s.world = 0
    · simp [hV, he, emit]
    · simp [hV, he, emit]
  · by_cases he : env.request_irq s.this.irq s.world = 0
    · simp [hV, he, emit]
    · simp [hV, he, emit]

/-- The calls of lines 290-299: only the registration of the power-management hooks. -/
theorem initWakelock_eq (env : Env W) (s : State W) :
    initWakelock env s =
      { s with
        early_suspend := if env.CONFIG_HAS_WAKELOCK = true then true else s.early_suspend,
        trace := s.trace ++
          if env.CONFIG_HAS_WAKELOCK = true then [Event.register_early_suspend] else [] } := by
  unfold initWakelock sx86XX_early_suspend sx86XX_suspend
  by_cases hC : env.CONFIG_HAS_WAKELOCK = true
  · simp only [hC, if_true]
    split <;> simp [emit]
  · simp [hC]

/-! ### The non-threaded work body and interrupt handler -/

theorem projections_rearm (c : Prop) [Decidable c] (d : Nat) :
    lineReads (if c then [Event.spin_lock_irqsave, Event.cancel_delayed_work,
      Event.schedule_delayed_work d, Event.spin_unlock_irqrestore] else []) = [] ∧
    refreshCalls (if c then [Event.spin_lock_irqsave, Event.cancel_delayed_work,
      Event.schedule_delayed_work d, Event.spin_unlock_irqrestore] else []) = [] := by
  by_cases hc : c <;> simp [hc, lineReads, refreshCalls]


/-- What the non-threaded work body does to the context and to the work item. -/
theorem NonThreaded.worker_state (env : Env W) (s : State W) :
    (NonThreaded.sx86XX_worker_func env Ptr.ctx s).this =
      (statusLoop env (statusRead env s) (NonThreaded.afterRefresh env s)).this ∧
    (NonThreaded.sx86XX_worker_func env Ptr.ctx s).dworker =
      if (NonThreaded.sx86XX_worker_func env Ptr.ctx s).this.useIrqTimer = true
          ∧ s.this.useIrqTimer = true ∧ lineAsserted env s = true then
        some (env.msecs_to_jiffies (NonThreaded.sx86XX_worker_func env Ptr.ctx s).this.irqTimeout)
      else s.dworker := by
  have hf := statusLoop_frame env (statusRead env s) (NonThreaded.afterRefresh env s)
  have hout := NonThreaded.worker_shape env s
  by_cases hc : (statusLoop env (statusRead env s) (NonThreaded.afterRefresh env s)).this.useIrqTimer
      = true ∧ s.this.useIrqTimer = true ∧ lineAsserted env s = true
  · rw [if_pos hc, schedule_work_eq] at hout
    rw [hout]
    exact ⟨rfl, by simp [hc]⟩
  · rw [if_neg hc] at hout
    rw [hout]
    refine ⟨rfl, ?_⟩
    rw [if_neg hc, hf.1]
    rfl

/-- The non-threaded interrupt handler: gate on the line level, then schedule the work
item with zero delay. -/
theorem NonThreaded.irq_shape (env : Env W) (s : State W) :
    NonThreaded.sx86XX_irq env Ptr.ctx s =
      (IRQ_HANDLED,
        if lineAsserted env s = true then
          { s with
            dworker := some 0,
            trace := s.trace ++ (s.this.get_nirq_low.map Event.get_nirq_low).toList ++
              [Event.spin_lock_irqsave, Event.cancel_delayed_work,
                Event.schedule_delayed_work 0, Event.spin_unlock_irqrestore] }
        else
          { s with
            trace := s.trace ++ (s.this.get_nirq_low.map Event.get_nirq_low).toList }) := by
  unfold NonThreaded.sx86XX_irq lineAsserted
  cases hg : s.this.get_nirq_low with
  | none => simp [schedule_work_eq]
  | some g =>
    by_cases hl : env.get_nirq_low g s.world = true
    · simp [hl, emit, schedule_work_eq]
    · simp [hl, emit]

/-! ### The mutex discipline -/

/-- While the mutex is held, calls other than `mutex_unlock` keep the discipline. -/
theorem underMutex_held_append (l rest : List Event) (h : ∀ e ∈ l, e ≠ Event.mutex_unlock) :
    underMutex true (l ++ rest) = underMutex true rest := by
  induction l with
  | nil => rfl
  | cons e l ih =>
    have he := h e (List.mem_cons_self e l)
    have ih2 := ih (fun x hx => h x (List.mem_cons_of_mem e hx))
    cases e <;> simp_all [underMutex, Event.isDispatch]

/-- Every dispatch call made by the threaded interrupt handler is made under the mutex. -/
theorem Threaded.thread_underMutex (env : Env W) (s : State W) (held : Bool) :
    underMutex held (newEvents s (Threaded.sx86XX_interrupt_thread env s).2) = true := by
  rw [newEvents_eq _ _ _ (Threaded.thread_trace env s)]
  have hpj := (Threaded.process_projections env 1 (Threaded.afterGate s)).2.2
  have hno : ∀ e ∈ (s.this.get_nirq_low.map Event.get_nirq_low).toList ++
      (if lineAsserted env s = true then
        newEvents (Threaded.afterGate s)
          (Threaded.sx86XX_process_interrupt env Ptr.ctx 1 (Threaded.afterGate s))
       else []), e ≠ Event.mutex_unlock := by
    intro e he
    rcases List.mem_append.1 he with h | h
    · cases hg : s.this.get_nirq_low with
      | none => simp [hg] at h
      | some g => simp [hg] at h; subst h; simp
    · split at h
      · exact hpj e h
      · simp at h
  have hstep := underMutex_held_append _ [Event.mutex_unlock] hno
  simp only [List.append_assoc, List.singleton_append]
  simp only [List.append_assoc] at hstep
  exact hstep.trans rfl

/-- Every dispatch call made by the threaded resume is made under the mutex. -/
theorem resume_underMutex (env : Env W) (this : Ptr) (s : State W) (held : Bool)
    (hV : env.USE_THREADED_IRQ = true) :
    underMutex held (newEvents s (sx86XX_resume env this s)) = true := by
  cases this with
  | null => simp [sx86XX_resume, newEvents, underMutex]
  | ctx =>
    have hpj := (Threaded.process_projections env 0 (mutex_lock s)).2.2
    have hptr := Threaded.process_trace env 0 (mutex_lock s)
    have htr : (sx86XX_resume env Ptr.ctx s).trace = s.trace ++ (Event.mutex_lock ::
        (newEvents (mutex_lock s)
          (Threaded.sx86XX_process_interrupt env Ptr.ctx 0 (mutex_lock s)) ++
        [Event.mutex_unlock])) := by
      have hres : sx86XX_resume env Ptr.ctx s =
          mutex_unlock (Threaded.sx86XX_process_interrupt env Ptr.ctx 0 (mutex_lock s)) := by
        simp [sx86XX_resume, hV]
      rw [hres]
      show (Threaded.sx86XX_process_interrupt env Ptr.ctx 0 (mutex_lock s)).trace ++ _ = _
      rw [hptr, newEvents_eq _ _ _ hptr]
      simp [mutex_lock, emit]
    rw [newEvents_eq _ _ _ htr]
    have hstep := underMutex_held_append _ [Event.mutex_unlock] hpj
    exact hstep.trans rfl

theorem count_statusFunc_startupCheck (B : Int) (p : Option sx9500) (i : Nat) (f : FnPtr) :
    (startupCheckEvents B p).count (Event.statusFunc i f) = 0 := by
  cases p with
  | none => simp [startupCheckEvents]
  | some p =>
    by_cases hb : B.testBit 4 = true ∨ B.testBit 5 = true
    · simp [startupCheckEvents, hb]
    · simp [startupCheckEvents, hb]

/-! ## The claims -/

/-- C1 (status dispatch exactness).  Let `T` be the callback table when the dispatch pass
starts, that is the table of the context as the status read leaves it, and let the
handlers registered in `T` leave the table alone.  Then, for every status `B`, the
dispatch loop started in any state with table `T` appends exactly the calls
`dispatchEvents` to the trace; in that list the call of `statusFunc[i]` occurs once when
`i < MAX_NUM_STATUS_BITS`, bit `i` of `B` is set and the entry is non-null, and does not
occur otherwise; two statuses that agree on the handled bits below the maximum lead to
the same final state.  The same count holds for the calls made by the whole non-threaded
work body, in every context, with `B` the status returned by `refreshStatus`; and for the
whole threaded dispatch body when `inStartupTouch` is false at its test, while no handler
at all is called when it is true. -/
theorem dispatch_pass_exact (env : Env W) (s : State W) (nirqlow : Nat)
    (hT : ∀ i f, i < env.MAX_NUM_STATUS_BITS → (refreshedCtx env s).statusFunc i = some f →
      ∀ c w, (env.statusFunc f (c, w)).1.statusFunc = c.statusFunc) :
    (∀ p : State W, p.this.statusFunc = (refreshedCtx env s).statusFunc →
      ∀ B, newEvents p (statusLoop env B p) =
        dispatchEvents env.MAX_NUM_STATUS_BITS B (refreshedCtx env s).statusFunc) ∧
    (∀ B i f, (dispatchEvents env.MAX_NUM_STATUS_BITS B (refreshedCtx env s).statusFunc).count
        (Event.statusFunc i f) =
      if i < env.MAX_NUM_STATUS_BITS ∧ B.testBit i = true ∧
        (refreshedCtx env s).statusFunc i = some f then 1 else 0) ∧
    (∀ p : State W, p.this.statusFunc = (refreshedCtx env s).statusFunc →
      ∀ B B2, (∀ i, i < env.MAX_NUM_STATUS_BITS → (refreshedCtx env s).statusFunc i ≠ none →
        B2.testBit i = B.testBit i) → statusLoop env B2 p = statusLoop env B p) ∧
    (∀ i f, (newEvents s (NonThreaded.sx86XX_worker_func env Ptr.ctx s)).count
        (Event.statusFunc i f) =
      if i < env.MAX_NUM_STATUS_BITS ∧ (statusRead env s).testBit i = true ∧
        (refreshedCtx env s).statusFunc i = some f then 1 else 0) ∧
    (∀ i f, (newEvents s (Threaded.sx86XX_process_interrupt env Ptr.ctx nirqlow s)).count
        (Event.statusFunc i f) =
      if (refreshedCtx env s).inStartupTouch = false ∧ i < env.MAX_NUM_STATUS_BITS ∧
        (statusRead env s).testBit i = true ∧ (refreshedCtx env s).statusFunc i = some f
      then 1 else 0) := by
  refine ⟨?_, ?_, ?_, ?_, ?_⟩
  · intro p hp B
    have h := (statusLoop_exact env B p (by rw [hp]; exact hT)).2
    rw [hp] at h
    exact newEvents_eq _ _ _ h
  · intro B i f
    exact dispatchEvents_count _ _ _ _ _
  · intro p hp B B2 hB
    exact statusLoop_congr env B B2 p (by rw [hp]; exact hT) (by rw [hp]; exact hB)
  · intro i f
    have hex := newEvents_eq _ _ _
      (statusLoop_exact env (statusRead env s) (NonThreaded.afterRefresh env s) hT).2
    rw [newEvents_eq _ _ _ (NonThreaded.worker_trace env s), hex, List.count_append,
      List.count_append, List.count_append, count_statusFunc_lineRead]
    rw [show (NonThreaded.afterRefresh env s).this.statusFunc = (refreshedCtx env s).statusFunc
      from rfl, dispatchEvents_count]
    split <;> split <;> simp
  · intro i f
    rw [newEvents_eq _ _ _ (Threaded.process_trace env nirqlow s)]
    by_cases hS : (refreshedCtx env s).inStartupTouch = true
    · rw [if_pos hS, if_neg (by simp [hS]), List.count_append, count_statusFunc_startupCheck]
      simp
    · have hS2 : (refreshedCtx env s).inStartupTouch = false := by simpa using hS
      have hex := newEvents_eq _ _ _
        (statusLoop_exact env (statusRead env s) (Threaded.afterRefresh env s) hT).2
      rw [if_neg hS, hex, List.count_append, List.count_append]
      rw [show (Threaded.afterRefresh env s).this.statusFunc = (refreshedCtx env s).statusFunc
        from rfl, dispatchEvents_count]
      simp only [hS2, true_and]
      split <;> split <;> simp

/-- C1, evaluated on the example board: with handlers at bits 4 and 5 and status `0x30`
the pass calls these two handlers, each once, and nothing else; the non-threaded work
body does so during the startup phase too, where the threaded body calls no handler. -/
theorem dispatch_pass_exact_witness :
    newEvents (boardState boardCtx) (statusLoop (boardEnv false false) 0x30 (boardState boardCtx))
      = [Event.statusFunc 4 104, Event.statusFunc 5 105] ∧
    (newEvents (boardState boardCtx)
      (NonThreaded.sx86XX_worker_func (boardEnv false false) Ptr.ctx (boardState boardCtx))).count
        (Event.statusFunc 4 104) = 1 ∧
    (newEvents (boardState startupCtx)
      (NonThreaded.sx86XX_worker_func (boardEnv false false) Ptr.ctx (boardState startupCtx))).count
        (Event.statusFunc 4 104) = 1 ∧
    (newEvents (boardState boardCtx)
      (Threaded.sx86XX_process_interrupt (boardEnv true false) Ptr.ctx 1 (boardState boardCtx))).count
        (Event.statusFunc 5 105) = 1 ∧
    (newEvents (boardState boardCtx)
      (Threaded.sx86XX_process_interrupt (boardEnv true false) Ptr.ctx 1 (boardState boardCtx))).count
        (Event.statusFunc 3 104) = 0 ∧
    (newEvents (boardState startupCtx)
      (Threaded.sx86XX_process_interrupt (boardEnv true false) Ptr.ctx 1
        (boardState startupCtx))).count (Event.statusFunc 5 105) = 0 := by
  have h1 := dispatch_pass_exact (boardEnv false false) (boardState boardCtx) 1
    (fun _ _ _ _ _ _ => rfl)
  have h2 := dispatch_pass_exact (boardEnv true false) (boardState boardCtx) 1
    (fun _ _ _ _ _ _ => rfl)
  have h3 := dispatch_pass_exact (boardEnv false false) (boardState startupCtx) 1
    (fun _ _ _ _ _ _ => rfl)
  have h4 := dispatch_pass_exact (boardEnv true false) (boardState startupCtx) 1
    (fun _ _ _ _ _ _ => rfl)
  refine ⟨?_, ?_, ?_, ?_, ?_, ?_⟩
  · rw [h1.1 (boardState boardCtx) rfl]; decide
  · rw [h1.2.2.2.1]; decide
  · rw [h3.2.2.2.1]; decide
  · rw [h2.2.2.2.2]; decide
  · rw [h2.2.2.2.2]; decide
  · rw [h4.2.2.2.2]; decide

/-- C2 (startup suppression, threaded variant).  The flag `inStartupTouch` and the
pointer `pDevice` are the ones the code tests at lines 40 and 44, in the context as the
status read of line 35 leaves it.  When the flag is true the dispatch body calls
`refreshStatus` and the wake-lock service and then at most the startup check
`touchCheckWithReferenceSensor`: the check is called exactly when bit 4 (COMPDONE) or
bit 5 (FAR) of the status is set and the device extension is non-null; no status handler
is called and the work item is not touched.  When the flag is false the startup check is
not called, and, provided the registered handlers leave the table alone, the calls are
the status read, the wake-lock call, every matching handler, and the optional re-arming
of the work item. -/
theorem startup_suppression (env : Env W) (s : State W) (nirqlow : Nat) :
    if (refreshedCtx env s).inStartupTouch = true then
      newEvents s (Threaded.sx86XX_process_interrupt env Ptr.ctx nirqlow s) =
        [Event.refreshStatus s.this.refreshStatus,
          Event.wake_lock_timeout (env.msecs_to_jiffies 1500)] ++
        (match (refreshedCtx env s).pDevice with
         | some p =>
           if (statusRead env s).testBit 4 = true ∨ (statusRead env s).testBit 5 = true then
             [Event.touchCheckWithReferenceSensor (p.defaultStartupMainSensor % 256)
               (p.defaultStartupRefSensor % 256)]
           else []
         | none => []) ∧
      (Threaded.sx86XX_process_interrupt env Ptr.ctx nirqlow s).dworker = s.dworker
    else
      (∀ a b, Event.touchCheckWithReferenceSensor a b ∉
        newEvents s (Threaded.sx86XX_process_interrupt env Ptr.ctx nirqlow s)) ∧
      ((∀ i f, i < env.MAX_NUM_STATUS_BITS → (refreshedCtx env s).statusFunc i = some f →
          ∀ c w, (env.statusFunc f (c, w)).1.statusFunc = c.statusFunc) →
        newEvents s (Threaded.sx86XX_process_interrupt env Ptr.ctx nirqlow s) =
          [Event.refreshStatus s.this.refreshStatus,
            Event.wake_lock_timeout (env.msecs_to_jiffies 1500)] ++
          dispatchEvents env.MAX_NUM_STATUS_BITS (statusRead env s)
            (refreshedCtx env s).statusFunc ++
          (if (Threaded.sx86XX_process_interrupt env Ptr.ctx nirqlow s).this.useIrqTimer = true
              ∧ nirqlow ≠ 0 then
            [Event.cancel_delayed_work,
              Event.schedule_delayed_work (env.msecs_to_jiffies
                (Threaded.sx86XX_process_interrupt env Ptr.ctx nirqlow s).this.irqTimeout)]
           else [])) := by
  have htr := newEvents_eq _ _ _ (Threaded.process_trace env nirqlow s)
  have hdw := (Threaded.process_dworker env nirqlow s).1
  by_cases hS : (refreshedCtx env s).inStartupTouch = true
  · rw [if_pos hS] at htr
    rw [if_pos hS, htr, hdw, if_neg (by simp [hS])]
    exact ⟨rfl, rfl⟩
  · rw [if_neg hS] at htr
    rw [if_neg hS]
    have hl := (statusLoop_trace env (statusRead env s) (Threaded.afterRefresh env s)).2
    refine ⟨?_, ?_⟩
    · intro a b hmem
      rw [htr] at hmem
      simp only [List.mem_append, List.mem_cons, List.mem_singleton] at hmem
      rcases hmem with hm | hm | hm
      · simp at hm
      · have := hl _ hm
        simp [Event.isStatusFunc] at this
      · split at hm <;> simp at hm
    · intro hT
      have hex := newEvents_eq _ _ _
        (statusLoop_exact env (statusRead env s) (Threaded.afterRefresh env s) hT).2
      rw [htr, hex]
      simp
      rfl

/-- C2, evaluated on the example board: in the startup phase with status `0x30` only the
status read, the wake-lock call and the startup check are made; outside the startup phase
the two handlers run and the startup check does not; and when the status read itself
ends the startup phase, the test of line 40 finds the flag false and the handlers run. -/
theorem startup_suppression_witness :
    newEvents (boardState startupCtx)
      (Threaded.sx86XX_process_interrupt (boardEnv true false) Ptr.ctx 1
        (boardState startupCtx)) =
      [Event.refreshStatus 100, Event.wake_lock_timeout 150,
        Event.touchCheckWithReferenceSensor 0 2] ∧
    newEvents (boardState boardCtx)
      (Threaded.sx86XX_process_interrupt (boardEnv true false) Ptr.ctx 1 (boardState boardCtx)) =
      [Event.refreshStatus 100, Event.wake_lock_timeout 150, Event.statusFunc 4 104,
        Event.statusFunc 5 105, Event.cancel_delayed_work, Event.schedule_delayed_work 10] ∧
    newEvents (boardState startupCtx)
      (Threaded.sx86XX_process_interrupt readEndsStartupEnv Ptr.ctx 1 (boardState startupCtx)) =
      [Event.refreshStatus 100, Event.wake_lock_timeout 150, Event.statusFunc 4 104,
        Event.statusFunc 5 105, Event.cancel_delayed_work, Event.schedule_delayed_work 10] := by
  have h1 := ite_prop_pos (by decide)
    (startup_suppression (boardEnv true false) (boardState startupCtx) 1)
  have h2 := ite_prop_neg (by decide)
    (startup_suppression (boardEnv true false) (boardState boardCtx) 1)
  have h3 := ite_prop_neg (by decide)
    (startup_suppression readEndsStartupEnv (boardState startupCtx) 1)
  refine ⟨?_, ?_, ?_⟩
  · rw [h1.1]; decide
  · rw [h2.2 (fun _ _ _ _ _ _ => rfl)]; decide
  · rw [h3.2 (fun _ _ _ _ _ _ => rfl)]; decide

/-- C3 as stated fails on the example board.  With `useIrqTimer` set and the line
asserted, a hardware trigger during the startup phase schedules nothing and leaves the
work item idle; and outside the startup phase a handler that clears `useIrqTimer` has
the same effect. -/
theorem penup_repoll_counterexample :
    (boardState startupCtx).this.useIrqTimer = true ∧
    lineAsserted (boardEnv true false) (boardState startupCtx) = true ∧
    scheduledDelays (newEvents (boardState startupCtx)
      (Threaded.sx86XX_interrupt_thread (boardEnv true false) (boardState startupCtx)).2) = [] ∧
    (Threaded.sx86XX_interrupt_thread (boardEnv true false) (boardState startupCtx)).2.dworker
      = none ∧
    (boardState boardCtx).this.useIrqTimer = true ∧
    lineAsserted clearingEnv (boardState boardCtx) = true ∧
    scheduledDelays (newEvents (boardState boardCtx)
      (Threaded.sx86XX_interrupt_thread clearingEnv (boardState boardCtx)).2) = [] ∧
    (Threaded.sx86XX_interrupt_thread clearingEnv (boardState boardCtx)).2.dworker = none := by
  decide

/-- C3 (pen-up re-poll, threaded variant), as amended.  Let no status handler change
`useIrqTimer`.  A run of the interrupt thread re-arms the work item exactly when the line
gate passes and, in the context as the status read leaves it, `inStartupTouch` is false
(the test of line 40) and `useIrqTimer` is true (the test of line 65 comes after the
handlers, which keep that value): its calls then end with
`cancel_delayed_work`, `schedule_delayed_work (msecs_to_jiffies irqTimeout)`,
`mutex_unlock`, this is the only scheduling call, and the item is left pending with that
delay.  In every other case, in particular during the startup phase, the run schedules
nothing and leaves the work item as it was.  A resume never schedules and leaves the
work item as it was. -/
theorem penup_repoll (env : Env W) (s : State W) (this : Ptr)
    (hV : env.USE_THREADED_IRQ = true)
    (hU : ∀ f c w, (env.statusFunc f (c, w)).1.useIrqTimer = c.useIrqTimer) :
    (if lineAsserted env s = true ∧ (refreshedCtx env s).inStartupTouch = false ∧
        (refreshedCtx env s).useIrqTimer = true
     then
      (∃ pre, newEvents s (Threaded.sx86XX_interrupt_thread env s).2 = pre ++
        [Event.cancel_delayed_work,
          Event.schedule_delayed_work
            (env.msecs_to_jiffies (Threaded.sx86XX_interrupt_thread env s).2.this.irqTimeout),
          Event.mutex_unlock]) ∧
      scheduledDelays (newEvents s (Threaded.sx86XX_interrupt_thread env s).2) =
        [env.msecs_to_jiffies (Threaded.sx86XX_interrupt_thread env s).2.this.irqTimeout] ∧
      (Threaded.sx86XX_interrupt_thread env s).2.dworker =
        some (env.msecs_to_jiffies (Threaded.sx86XX_interrupt_thread env s).2.this.irqTimeout)
     else
      scheduledDelays (newEvents s (Threaded.sx86XX_interrupt_thread env s).2) = [] ∧
      (Threaded.sx86XX_interrupt_thread env s).2.dworker = s.dworker) ∧
    scheduledDelays (newEvents s (sx86XX_resume env this s)) = [] ∧
    (sx86XX_resume env this s).dworker = s.dworker := by
  refine ⟨?_, ?_⟩
  · have htr := newEvents_eq _ _ _ (Threaded.thread_trace env s)
    have hsh := Threaded.thread_shape env s
    have hpj := Threaded.process_projections env 1 (Threaded.afterGate s)
    have hdw := (Threaded.process_dworker env 1 (Threaded.afterGate s)).1
    have hptr := newEvents_eq _ _ _ (Threaded.process_trace env 1 (Threaded.afterGate s))
    have hrd := projections_lineRead s.this.get_nirq_low
    by_cases ha : lineAsserted env s = true
    · rw [if_pos ha] at htr hsh
      have hthis : (Threaded.sx86XX_interrupt_thread env s).2.this =
          (Threaded.sx86XX_process_interrupt env Ptr.ctx 1 (Threaded.afterGate s)).this := by
        rw [hsh]; rfl
      have hdwo : (Threaded.sx86XX_interrupt_thread env s).2.dworker =
          (Threaded.sx86XX_process_interrupt env Ptr.ctx 1 (Threaded.afterGate s)).dworker := by
        rw [hsh]; rfl
      by_cases hS : (refreshedCtx env s).inStartupTouch = false
      · have hu := Threaded.process_useIrqTimer env 1 (Threaded.afterGate s) hU hS
        by_cases hT : (refreshedCtx env s).useIrqTimer = true
        · have hu2 : (Threaded.sx86XX_process_interrupt env Ptr.ctx 1
              (Threaded.afterGate s)).this.useIrqTimer = true := by rw [hu]; exact hT
          have hcond : (refreshedCtx env (Threaded.afterGate s)).inStartupTouch = false ∧
              (Threaded.sx86XX_process_interrupt env Ptr.ctx 1
                (Threaded.afterGate s)).this.useIrqTimer = true ∧ 1 ≠ 0 :=
            ⟨hS, hu2, by decide⟩
          rw [if_pos ⟨ha, hS, hT⟩, htr, hdwo, hdw, hthis]
          refine ⟨?_, ?_, ?_⟩
          · have hnS : ¬ (refreshedCtx env (Threaded.afterGate s)).inStartupTouch = true := by
              rw [show refreshedCtx env (Threaded.afterGate s) = refreshedCtx env s from rfl, hS]
              decide
            rw [hptr, if_neg hnS, if_pos ⟨hu2, by decide⟩]
            refine ⟨[Event.mutex_lock] ++ (s.this.get_nirq_low.map Event.get_nirq_low).toList ++
              [Event.refreshStatus (Threaded.afterGate s).this.refreshStatus,
                Event.wake_lock_timeout (env.msecs_to_jiffies 1500)] ++
              newEvents (Threaded.afterRefresh env (Threaded.afterGate s))
                (statusLoop env (statusRead env (Threaded.afterGate s))
                  (Threaded.afterRefresh env (Threaded.afterGate s))), ?_⟩
            simp
          · rw [scheduledDelays_append, scheduledDelays_append, scheduledDelays_append, hrd.1,
              hpj.1, if_pos hcond]
            simp [scheduledDelays]
          · rw [if_pos hcond]
        · have hu2 : ¬ (Threaded.sx86XX_process_interrupt env Ptr.ctx 1
              (Threaded.afterGate s)).this.useIrqTimer = true := by rw [hu]; exact hT
          rw [if_neg (fun h => hT h.2.2), htr, hdwo, hdw]
          refine ⟨?_, ?_⟩
          · rw [scheduledDelays_append, scheduledDelays_append, scheduledDelays_append, hrd.1,
              hpj.1, if_neg (fun h => hu2 h.2.1)]
            simp [scheduledDelays]
          · rw [if_neg (fun h => hu2 h.2.1)]; rfl
      · have hS2 : ¬ (refreshedCtx env (Threaded.afterGate s)).inStartupTouch = false := hS
        rw [if_neg (fun h => hS h.2.1), htr, hdwo, hdw]
        refine ⟨?_, ?_⟩
        · rw [scheduledDelays_append, scheduledDelays_append, scheduledDelays_append, hrd.1,
            hpj.1, if_neg (fun h => hS2 h.1)]
          simp [scheduledDelays]
        · rw [if_neg (fun h => hS2 h.1)]; rfl
    · rw [if_neg ha] at htr hsh
      rw [if_neg (fun h => ha h.1), htr, hsh]
      refine ⟨?_, rfl⟩
      rw [scheduledDelays_append, scheduledDelays_append, scheduledDelays_append, hrd.1]
      simp [scheduledDelays]
  · cases this with
    | null => exact ⟨by simp [sx86XX_resume, newEvents, scheduledDelays], rfl⟩
    | ctx =>
      have hpj := Threaded.process_projections env 0 (mutex_lock s)
      have hdw := (Threaded.process_dworker env 0 (mutex_lock s)).1
      have hptr := Threaded.process_trace env 0 (mutex_lock s)
      have hres : sx86XX_resume env Ptr.ctx s =
          mutex_unlock (Threaded.sx86XX_process_interrupt env Ptr.ctx 0 (mutex_lock s)) := by
        simp [sx86XX_resume, hV]
      have htr : (sx86XX_resume env Ptr.ctx s).trace = s.trace ++ ([Event.mutex_lock] ++
          newEvents (mutex_lock s)
            (Threaded.sx86XX_process_interrupt env Ptr.ctx 0 (mutex_lock s)) ++
          [Event.mutex_unlock]) := by
        rw [hres]
        show (Threaded.sx86XX_process_interrupt env Ptr.ctx 0 (mutex_lock s)).trace ++ _ = _
        rw [hptr, newEvents_eq _ _ _ hptr]
        simp [mutex_lock, emit]
      refine ⟨?_, ?_⟩
      · rw [newEvents_eq _ _ _ htr, scheduledDelays_append, scheduledDelays_append, hpj.1,
          if_neg (fun h => h.2.2 rfl)]
        simp [scheduledDelays]
      · rw [hres]
        show (Threaded.sx86XX_process_interrupt env Ptr.ctx 0 (mutex_lock s)).dworker = _
        rw [hdw, if_neg (fun h => h.2.2 rfl)]
        rfl

/-- C3 as amended, evaluated on the example board: outside the startup phase a hardware
trigger re-arms the work item with the delay for 100 ms (10 jiffies); during the startup
phase it schedules nothing; a resume schedules nothing. -/
theorem penup_repoll_witness :
    (Threaded.sx86XX_interrupt_thread (boardEnv true false) (boardState boardCtx)).2.dworker
      = some 10 ∧
    scheduledDelays (newEvents (boardState startupCtx)
      (Threaded.sx86XX_interrupt_thread (boardEnv true false) (boardState startupCtx)).2) = [] ∧
    scheduledDelays (newEvents (boardState boardCtx)
      (sx86XX_resume (boardEnv true false) Ptr.ctx (boardState boardCtx))) = [] := by
  have h1 := penup_repoll (boardEnv true false) (boardState boardCtx) Ptr.ctx rfl
    (fun _ _ _ => rfl)
  have h2 := penup_repoll (boardEnv true false) (boardState startupCtx) Ptr.ctx rfl
    (fun _ _ _ => rfl)
  refine ⟨?_, ?_, h1.2.1⟩
  · rw [(ite_prop_pos (by decide) h1.1).2.2]; decide
  · exact (ite_prop_neg (by decide) h2.1).1

/-- C4 (scheduling idempotence, non-threaded variant).  Whatever the state of the work
item, after `sx86XX_schedule_work(this, d1)` followed by `sx86XX_schedule_work(this, d2)`
the item is pending with delay `d2` (after the first call alone: `d1`); each call takes
the spinlock, cancels, schedules and releases, in this order, and nothing else of the
state changes.  The cancel is what makes this work: two bare `schedule_delayed_work`
calls on an idle item would leave the delay at `d1`. -/
theorem schedule_work_idempotent (s : State W) (d1 d2 : Nat) :
    (NonThreaded.sx86XX_schedule_work Ptr.ctx d1 s).dworker = some d1 ∧
    (NonThreaded.sx86XX_schedule_work Ptr.ctx d2
      (NonThreaded.sx86XX_schedule_work Ptr.ctx d1 s)).dworker = some d2 ∧
    newEvents s (NonThreaded.sx86XX_schedule_work Ptr.ctx d2
      (NonThreaded.sx86XX_schedule_work Ptr.ctx d1 s)) =
      [Event.spin_lock_irqsave, Event.cancel_delayed_work, Event.schedule_delayed_work d1,
        Event.spin_unlock_irqrestore,
        Event.spin_lock_irqsave, Event.cancel_delayed_work, Event.schedule_delayed_work d2,
        Event.spin_unlock_irqrestore] ∧
    NonThreaded.sx86XX_schedule_work Ptr.ctx d2
        (NonThreaded.sx86XX_schedule_work Ptr.ctx d1 s) =
      { s with
        dworker := some d2,
        trace := (NonThreaded.sx86XX_schedule_work Ptr.ctx d2
          (NonThreaded.sx86XX_schedule_work Ptr.ctx d1 s)).trace } ∧
    (schedule_delayed_work d2 (schedule_delayed_work d1 (cancel_delayed_work s))).dworker
      = some d1 := by
  refine ⟨?_, ?_, ?_, ?_, ?_⟩
  · rw [schedule_work_eq]
  · rw [schedule_work_eq]
  · apply newEvents_eq
    rw [schedule_work_eq, schedule_work_eq]
    simp
  · rw [schedule_work_eq, schedule_work_eq]
  · rfl

/-- C5 (setup result).  With a null context or a null device extension `sx86XX_init`
returns `-ENOMEM` and does nothing at all.  Otherwise it makes one registration attempt;
if the kernel answers with a non-zero error, that error is returned and `init` is not
called; if the registration succeeds and an `init` pointer is set, `init` is called once
and its result is returned; with no `init` pointer the result is `-ENOMEM`. -/
theorem init_result (env : Env W) (this : Ptr) (s : State W) :
    if this = Ptr.null ∨ s.this.pDevice = none then
      sx86XX_init env this s = (-ENOMEM, s)
    else
      irqRequests (newEvents s (sx86XX_init env this s).2) =
        [if env.USE_THREADED_IRQ = true then Event.request_threaded_irq s.this.irq
         else Event.request_irq s.this.irq] ∧
      if env.request_irq s.this.irq s.world ≠ 0 then
        (sx86XX_init env this s).1 = env.request_irq s.this.irq s.world ∧
        initCalls (newEvents s (sx86XX_init env this s).2) = []
      else
        match s.this.init with
        | some f =>
          (sx86XX_init env this s).1 =
            (env.init f ({ s.this with irq_disabled := 0 }, s.world)).1 ∧
          initCalls (newEvents s (sx86XX_init env this s).2) = [f]
        | none =>
          (sx86XX_init env this s).1 = -ENOMEM ∧
          initCalls (newEvents s (sx86XX_init env this s).2) = [] := by
  by_cases h0 : this = Ptr.null ∨ s.this.pDevice = none
  · rw [if_pos h0]
    unfold sx86XX_init
    rw [if_neg]
    rintro ⟨h1, h2⟩
    rcases h0 with h0 | h0
    · rw [h0] at h1; exact absurd h1 (by decide)
    · rw [h0] at h2; simp at h2
  · rw [if_neg h0]
    have hthis : this = Ptr.ctx := by
      cases this with
      | null => exact absurd (Or.inl rfl) h0
      | ctx => rfl
    have hp : s.this.pDevice.isSome = true := by
      cases hpd : s.this.pDevice with
      | none => exact absurd (Or.inr hpd) h0
      | some p => rfl
    subst hthis
    unfold sx86XX_init
    rw [if_pos ⟨rfl, hp⟩]
    simp only [initRegister_eq, initWakelock_eq]
    by_cases he : env.request_irq s.this.irq s.world = 0
    · simp only [he, ne_eq, not_true_eq_false, if_false, if_true]
      cases hi : s.this.init with
      | none =>
        simp only [newEvents, irqRequests, initCalls]
        by_cases hV : env.USE_THREADED_IRQ = true <;>
          by_cases hC : env.CONFIG_HAS_WAKELOCK = true <;> simp [hV, hC]
      | some f =>
        simp only [newEvents, irqRequests, initCalls, emit]
        by_cases hV : env.USE_THREADED_IRQ = true <;>
          by_cases hC : env.CONFIG_HAS_WAKELOCK = true <;> simp [hV, hC]
    · simp only [he, ne_eq, not_false_eq_true, if_true, if_false]
      simp only [newEvents, irqRequests, initCalls]
      by_cases hV : env.USE_THREADED_IRQ = true <;> simp [hV]

/-- C6 as stated fails on the example board.  Without an `init` pointer `sx86XX_init`
returns `-ENOMEM` although the registration succeeded, and the interrupt handler and the
power-management hooks stay registered.  And when the registration fails, the context
field `irq_disabled` (1 before the call) has been reset to 0. -/
theorem init_failure_counterexample :
    (sx86XX_init (boardEnv true true) Ptr.ctx (boardState noInitCtx)).1 = -ENOMEM ∧
    (boardState noInitCtx).irq_action = none ∧
    (sx86XX_init (boardEnv true true) Ptr.ctx (boardState noInitCtx)).2.irq_action =
      some IrqAction.sx86XX_interrupt_thread ∧
    (sx86XX_init (boardEnv true true) Ptr.ctx (boardState noInitCtx)).2.early_suspend = true ∧
    (sx86XX_init (boardEnv false true) Ptr.ctx (boardState busyCtx)).1 = -16 ∧
    (boardState busyCtx).this.irq_disabled = 1 ∧
    (sx86XX_init (boardEnv false true) Ptr.ctx (boardState busyCtx)).2.this.irq_disabled = 0 := by
  decide

/-- C6 (setup failure leaves the context inert), as amended.  When `sx86XX_init` fails
because the context is null, the device extension is null, or the registration of the
interrupt line is refused, the result is non-zero, the registered interrupt handler, the
power-management registration, the hardware and the allocation state are as before the
call, and the calls made are none (null cases) or the lock set-up, the work-item set-up
and the refused registration attempt; in the latter case the work item is idle and the
context differs from the one before the call at most in `irq_disabled`, which is 0. -/
theorem init_failure_inert (env : Env W) (this : Ptr) (s : State W)
    (hfail : this = Ptr.null ∨ s.this.pDevice = none ∨
      env.request_irq s.this.irq s.world ≠ 0) :
    (sx86XX_init env this s).1 ≠ 0 ∧
    (sx86XX_init env this s).2.irq_action = s.irq_action ∧
    (sx86XX_init env this s).2.early_suspend = s.early_suspend ∧
    (sx86XX_init env this s).2.world = s.world ∧
    (sx86XX_init env this s).2.freed = s.freed ∧
    (if this = Ptr.null ∨ s.this.pDevice = none then
      sx86XX_init env this s = (-ENOMEM, s)
     else
      (sx86XX_init env this s).1 = env.request_irq s.this.irq s.world ∧
      (sx86XX_init env this s).2.this = { s.this with irq_disabled := 0 } ∧
      (sx86XX_init env this s).2.dworker = none ∧
      newEvents s (sx86XX_init env this s).2 =
        if env.USE_THREADED_IRQ = true then
          [Event.INIT_DELAYED_WORK, Event.mutex_init, Event.request_threaded_irq s.this.irq]
        else
          [Event.spin_lock_init, Event.INIT_DELAYED_WORK, Event.request_irq s.this.irq]) := by
  by_cases h0 : this = Ptr.null ∨ s.this.pDevice = none
  · have hret : sx86XX_init env this s = (-ENOMEM, s) := by
      unfold sx86XX_init
      rw [if_neg]
      rintro ⟨h1, h2⟩
      rcases h0 with h0 | h0
      · rw [h0] at h1; exact absurd h1 (by decide)
      · rw [h0] at h2; simp at h2
    rw [if_pos h0, hret]
    exact ⟨show (-ENOMEM : Int) ≠ 0 by decide, rfl, rfl, rfl, rfl, rfl⟩
  · have he : env.request_irq s.this.irq s.world ≠ 0 := by
      rcases hfail with h | h | h
      · exact absurd (Or.inl h) h0
      · exact absurd (Or.inr h) h0
      · exact h
    have hthis : this = Ptr.ctx := by
      cases this with
      | null => exact absurd (Or.inl rfl) h0
      | ctx => rfl
    have hp : s.this.pDevice.isSome = true := by
      cases hpd : s.this.pDevice with
      | none => exact absurd (Or.inr hpd) h0
      | some p => rfl
    subst hthis
    have hret : sx86XX_init env Ptr.ctx s =
        (env.request_irq s.this.irq s.world, (initRegister env s).2) := by
      unfold sx86XX_init
      rw [if_pos ⟨rfl, hp⟩]
      simp only [initRegister_eq, he, ne_eq, not_false_eq_true, if_true]
    rw [if_neg h0, hret, initRegister_eq]
    refine ⟨he, ?_, rfl, rfl, rfl, rfl, rfl, rfl, ?_⟩
    · simp [he]
    · exact newEvents_eq _ _ _ rfl

/-- C6 as amended, evaluated on the example board: on the refused line 0 the call fails
with the kernel's error, no handler is registered, and only the set-up calls were made. -/
theorem init_failure_inert_witness :
    (sx86XX_init (boardEnv false true) Ptr.ctx (boardState busyCtx)).1 = -16 ∧
    (sx86XX_init (boardEnv false true) Ptr.ctx (boardState busyCtx)).2.irq_action = none ∧
    newEvents (boardState busyCtx)
      (sx86XX_init (boardEnv false true) Ptr.ctx (boardState busyCtx)).2 =
      [Event.spin_lock_init, Event.INIT_DELAYED_WORK, Event.request_irq 0] := by
  have h := init_failure_inert (boardEnv false true) Ptr.ctx (boardState busyCtx)
    (Or.inr (Or.inr (by decide)))
  have h2 := ite_prop_neg (by decide) h.2.2.2.2.2
  exact ⟨h2.1, h.2.1, h2.2.2.2⟩

/-- C7 (teardown result and order).  On a null context `sx86XX_remove` returns `-ENOMEM`
and does nothing.  On a non-null context it returns 0 after calling, in this order and
once each, `cancel_delayed_work_sync`, `unregister_early_suspend` (when compiled in),
`free_irq` for the context's line, and `kfree`; afterwards the work item is idle, no
handler is registered and the context is freed. -/
theorem remove_result (env : Env W) (s : State W) :
    sx86XX_remove env Ptr.null s = (-ENOMEM, s) ∧
    (sx86XX_remove env Ptr.ctx s).1 = 0 ∧
    newEvents s (sx86XX_remove env Ptr.ctx s).2 =
      [Event.cancel_delayed_work_sync] ++
      (if env.CONFIG_HAS_WAKELOCK = true then [Event.unregister_early_suspend] else []) ++
      [Event.free_irq s.this.irq, Event.kfree] ∧
    (sx86XX_remove env Ptr.ctx s).2.dworker = none ∧
    (sx86XX_remove env Ptr.ctx s).2.irq_action = none ∧
    (sx86XX_remove env Ptr.ctx s).2.freed = true ∧
    (sx86XX_remove env Ptr.ctx s).2.early_suspend =
      (if env.CONFIG_HAS_WAKELOCK = true then false else s.early_suspend) := by
  refine ⟨rfl, rfl, ?_, ?_, rfl, rfl, ?_⟩
  · apply newEvents_eq
    unfold sx86XX_remove
    by_cases hC : env.CONFIG_HAS_WAKELOCK = true
    · simp [hC, emit, cancel_delayed_work_sync]
    · simp [hC, emit, cancel_delayed_work_sync]
  · unfold sx86XX_remove
    by_cases hC : env.CONFIG_HAS_WAKELOCK = true
    · simp [hC, emit, cancel_delayed_work_sync]
    · simp [hC, emit, cancel_delayed_work_sync]
  · unfold sx86XX_remove
    by_cases hC : env.CONFIG_HAS_WAKELOCK = true
    · simp [hC, emit, cancel_delayed_work_sync]
    · simp [hC, emit, cancel_delayed_work_sync]

/-- C8 (threaded dispatch runs under the mutex), evaluated at the failing input.  On the
example board without a line-level predicate, the interrupt thread and the resume make
their dispatch calls under the mutex, but the delayed-work body `sx86XX_worker_func`
makes the status read and both handler calls without ever taking it. -/
theorem worker_func_dispatch_unlocked :
    underMutex false (newEvents (boardState noGateCtx)
      (Threaded.sx86XX_interrupt_thread (boardEnv true false) (boardState noGateCtx)).2) = true ∧
    underMutex false (newEvents (boardState noGateCtx)
      (sx86XX_resume (boardEnv true false) Ptr.ctx (boardState noGateCtx))) = true ∧
    newEvents (boardState noGateCtx)
      (Threaded.sx86XX_worker_func (boardEnv true false) Ptr.ctx (boardState noGateCtx)) =
      [Event.refreshStatus 100, Event.wake_lock_timeout 150, Event.statusFunc 4 104,
        Event.statusFunc 5 105] ∧
    underMutex false (newEvents (boardState noGateCtx)
      (Threaded.sx86XX_worker_func (boardEnv true false) Ptr.ctx (boardState noGateCtx))) = false := by
  decide

/-- C9 as stated fails on the example board.  The status handlers leave `useIrqTimer`
alone, `useIrqTimer` is set and the line is asserted when the work body reads them before
the status read, but the status read clears `useIrqTimer`, and the test after the
dispatch pass (line 186) then schedules nothing and leaves the work item idle. -/
theorem worker_repoll_counterexample :
    (∀ f c w, (readClearsTimerEnv.statusFunc f (c, w)).1.useIrqTimer = c.useIrqTimer) ∧
    (boardState boardCtx).this.useIrqTimer = true ∧
    lineAsserted readClearsTimerEnv (boardState boardCtx) = true ∧
    lineReads (newEvents (boardState boardCtx)
      (NonThreaded.sx86XX_worker_func readClearsTimerEnv Ptr.ctx (boardState boardCtx))) = [200] ∧
    scheduledDelays (newEvents (boardState boardCtx)
      (NonThreaded.sx86XX_worker_func readClearsTimerEnv Ptr.ctx (boardState boardCtx))) = [] ∧
    (NonThreaded.sx86XX_worker_func readClearsTimerEnv Ptr.ctx (boardState boardCtx)).dworker
      = none :=
  ⟨fun _ _ _ => rfl, by decide, by decide, by decide, by decide, by decide⟩

/-- C9 (non-threaded re-poll), as amended.  Let no status handler change `useIrqTimer`.
The work body re-arms itself exactly when `useIrqTimer` is set and the line counts as
asserted in the state at entry, before the status read, and `useIrqTimer` is still set in
the context as the status read leaves it: its calls then end with the four calls of
`sx86XX_schedule_work` with delay `msecs_to_jiffies irqTimeout`, this is the only
scheduling call, and the item is left pending with that delay; otherwise nothing is
scheduled and the work item is left as it was.  The line level is read at most once, only
when `useIrqTimer` is set at entry, and this read precedes the status read. -/
theorem worker_repoll (env : Env W) (s : State W)
    (hU : ∀ f c w, (env.statusFunc f (c, w)).1.useIrqTimer = c.useIrqTimer) :
    (if s.this.useIrqTimer = true ∧ lineAsserted env s = true ∧
        (refreshedCtx env s).useIrqTimer = true then
      (∃ pre, newEvents s (NonThreaded.sx86XX_worker_func env Ptr.ctx s) = pre ++
        [Event.spin_lock_irqsave, Event.cancel_delayed_work,
          Event.schedule_delayed_work (env.msecs_to_jiffies
            (NonThreaded.sx86XX_worker_func env Ptr.ctx s).this.irqTimeout),
          Event.spin_unlock_irqrestore]) ∧
      scheduledDelays (newEvents s (NonThreaded.sx86XX_worker_func env Ptr.ctx s)) =
        [env.msecs_to_jiffies (NonThreaded.sx86XX_worker_func env Ptr.ctx s).this.irqTimeout] ∧
      (NonThreaded.sx86XX_worker_func env Ptr.ctx s).dworker =
        some (env.msecs_to_jiffies (NonThreaded.sx86XX_worker_func env Ptr.ctx s).this.irqTimeout)
     else
      scheduledDelays (newEvents s (NonThreaded.sx86XX_worker_func env Ptr.ctx s)) = [] ∧
      (NonThreaded.sx86XX_worker_func env Ptr.ctx s).dworker = s.dworker) ∧
    lineReads (newEvents s (NonThreaded.sx86XX_worker_func env Ptr.ctx s)) =
      (if s.this.useIrqTimer = true then s.this.get_nirq_low.toList else []) ∧
    (∃ post, newEvents s (NonThreaded.sx86XX_worker_func env Ptr.ctx s) =
      (if s.this.useIrqTimer = true then (s.this.get_nirq_low.map Event.get_nirq_low).toList
       else []) ++ [Event.refreshStatus s.this.refreshStatus] ++ post ∧
      lineReads post = [] ∧ refreshCalls post = []) := by
  have htr := newEvents_eq _ _ _ (NonThreaded.worker_trace env s)
  have hst := NonThreaded.worker_state env s
  have hl := (statusLoop_trace env (statusRead env s) (NonThreaded.afterRefresh env s)).2
  have hp := filterMaps_of_isStatusFunc _ hl
  have hu : (NonThreaded.sx86XX_worker_func env Ptr.ctx s).this.useIrqTimer
      = (refreshedCtx env s).useIrqTimer := by
    rw [hst.1, statusLoop_useIrqTimer env _ hU]
    rfl
  have hrd := projections_lineRead s.this.get_nirq_low
  have hrd2 : scheduledDelays (if s.this.useIrqTimer = true then
      (s.this.get_nirq_low.map Event.get_nirq_low).toList else []) = [] ∧
      lineReads (if s.this.useIrqTimer = true then
        (s.this.get_nirq_low.map Event.get_nirq_low).toList else []) =
        (if s.this.useIrqTimer = true then s.this.get_nirq_low.toList else []) := by
    split
    · exact ⟨hrd.1, hrd.2.2⟩
    · exact ⟨rfl, rfl⟩
  refine ⟨?_, ?_, ?_⟩
  · by_cases hc : s.this.useIrqTimer = true ∧ lineAsserted env s = true ∧
        (refreshedCtx env s).useIrqTimer = true
    · have hc3 : (NonThreaded.sx86XX_worker_func env Ptr.ctx s).this.useIrqTimer = true
          ∧ s.this.useIrqTimer = true ∧ lineAsserted env s = true :=
        ⟨by rw [hu]; exact hc.2.2, hc.1, hc.2.1⟩
      rw [if_pos hc3] at htr
      rw [if_pos hc, htr, hst.2, if_pos hc3]
      refine ⟨⟨_, rfl⟩, ?_, rfl⟩
      rw [scheduledDelays_append, scheduledDelays_append, scheduledDelays_append, hrd2.1, hp.1]
      simp [scheduledDelays]
    · have hc3 : ¬ ((NonThreaded.sx86XX_worker_func env Ptr.ctx s).this.useIrqTimer = true
          ∧ s.this.useIrqTimer = true ∧ lineAsserted env s = true) := by
        rw [hu]
        exact fun h => hc ⟨h.2.1, h.2.2, h.1⟩
      rw [if_neg hc3] at htr
      rw [if_neg hc, htr, hst.2, if_neg hc3]
      refine ⟨?_, rfl⟩
      rw [scheduledDelays_append, scheduledDelays_append, scheduledDelays_append, hrd2.1, hp.1]
      simp [scheduledDelays]
  · rw [htr, lineReads_append, lineReads_append, lineReads_append, hrd2.2, hp.2.2,
      (projections_rearm _ _).1]
    simp [lineReads]
  · rw [htr]
    refine ⟨_, by rw [List.append_assoc], ?_, ?_⟩
    · rw [lineReads_append, hp.2.2, (projections_rearm _ _).1]
      rfl
    · rw [refreshCalls_append, hp.2.1, (projections_rearm _ _).2]
      rfl

/-- C9 as amended, evaluated on the example board: the line is low at entry and released
by the status read, and the work body still re-arms itself with the delay for 100 ms;
when the status read clears `useIrqTimer`, nothing is scheduled. -/
theorem worker_repoll_witness :
    (NonThreaded.sx86XX_worker_func (boardEnv false false) Ptr.ctx
      (boardState boardCtx)).world.lineLow = false ∧
    (NonThreaded.sx86XX_worker_func (boardEnv false false) Ptr.ctx
      (boardState boardCtx)).dworker = some 10 ∧
    lineReads (newEvents (boardState boardCtx)
      (NonThreaded.sx86XX_worker_func (boardEnv false false) Ptr.ctx (boardState boardCtx)))
      = [200] ∧
    scheduledDelays (newEvents (boardState boardCtx)
      (NonThreaded.sx86XX_worker_func readClearsTimerEnv Ptr.ctx (boardState boardCtx))) = [] := by
  have h := worker_repoll (boardEnv false false) (boardState boardCtx) (fun _ _ _ => rfl)
  have h2 := worker_repoll readClearsTimerEnv (boardState boardCtx) (fun _ _ _ => rfl)
  refine ⟨by decide, ?_, ?_, ?_⟩
  · rw [(ite_prop_pos (by decide) h.1).2.2]; decide
  · rw [h.2.1]; decide
  · exact (ite_prop_neg (by decide) h2.1).1

/-- C10 (phantom-interrupt gate).  Threaded handler: it returns `IRQ_HANDLED` with the
mutex released; when the line counts as asserted it is the dispatch body with
`nirqlow = 1` between lock and unlock, with exactly one status read; otherwise its calls
are the lock, the line read and the unlock, and the context, the hardware and the work
item are untouched.  Non-threaded handler: it returns `IRQ_HANDLED` for any argument and
does nothing on a null one; when the line counts as asserted its calls are the line read
(when the predicate exists) and the four calls of `sx86XX_schedule_work` with delay 0,
leaving the item pending with delay 0; otherwise only the line read is made and the work
item is untouched; in neither case does it read the status or call a handler. -/
theorem phantom_interrupt_gate (env : Env W) (s : State W) (pvoid : Ptr) :
    (Threaded.sx86XX_interrupt_thread env s).1 = IRQ_HANDLED ∧
    (Threaded.sx86XX_interrupt_thread env s).2.mutex = false ∧
    (if lineAsserted env s = true then
      (Threaded.sx86XX_interrupt_thread env s).2 =
        mutex_unlock (Threaded.sx86XX_process_interrupt env Ptr.ctx 1 (Threaded.afterGate s)) ∧
      refreshCalls (newEvents s (Threaded.sx86XX_interrupt_thread env s).2) =
        [s.this.refreshStatus]
     else
      newEvents s (Threaded.sx86XX_interrupt_thread env s).2 =
        [Event.mutex_lock] ++ (s.this.get_nirq_low.map Event.get_nirq_low).toList ++
        [Event.mutex_unlock] ∧
      (Threaded.sx86XX_interrupt_thread env s).2.dworker = s.dworker ∧
      (Threaded.sx86XX_interrupt_thread env s).2.world = s.world) ∧
    (NonThreaded.sx86XX_irq env pvoid s).1 = IRQ_HANDLED ∧
    NonThreaded.sx86XX_irq env Ptr.null s = (IRQ_HANDLED, s) ∧
    (NonThreaded.sx86XX_irq env Ptr.ctx s).2.world = s.world ∧
    (if lineAsserted env s = true then
      newEvents s (NonThreaded.sx86XX_irq env Ptr.ctx s).2 =
        (s.this.get_nirq_low.map Event.get_nirq_low).toList ++
        [Event.spin_lock_irqsave, Event.cancel_delayed_work, Event.schedule_delayed_work 0,
          Event.spin_unlock_irqrestore] ∧
      (NonThreaded.sx86XX_irq env Ptr.ctx s).2.dworker = some 0
     else
      newEvents s (NonThreaded.sx86XX_irq env Ptr.ctx s).2 =
        (s.this.get_nirq_low.map Event.get_nirq_low).toList ∧
      (NonThreaded.sx86XX_irq env Ptr.ctx s).2.dworker = s.dworker) := by
  have hsh := Threaded.thread_shape env s
  have htr := newEvents_eq _ _ _ (Threaded.thread_trace env s)
  have hpj := Threaded.process_projections env 1 (Threaded.afterGate s)
  have hrd := projections_lineRead s.this.get_nirq_low
  have hirq := NonThreaded.irq_shape env s
  refine ⟨by rw [hsh], by rw [hsh]; rfl, ?_, ?_, rfl, ?_, ?_⟩
  · by_cases ha : lineAsserted env s = true
    · rw [if_pos ha] at hsh htr
      rw [if_pos ha]
      refine ⟨by rw [hsh], ?_⟩
      rw [htr, refreshCalls_append, refreshCalls_append, refreshCalls_append, hrd.2.1, hpj.2.1]
      simp [refreshCalls]
      rfl
    · rw [if_neg ha] at hsh htr
      rw [if_neg ha, htr, hsh]
      exact ⟨by simp, rfl, rfl⟩
  · cases pvoid with
    | null => rfl
    | ctx => rw [hirq]
  · rw [hirq]; split <;> rfl
  · by_cases ha : lineAsserted env s = true
    · rw [if_pos ha] at hirq
      rw [if_pos ha, hirq]
      exact ⟨newEvents_eq _ _ _ (by simp), rfl⟩
    · rw [if_neg ha] at hirq
      rw [if_neg ha, hirq]
      exact ⟨newEvents_eq _ _ _ rfl, rfl⟩

end Sx86xx
